import Mathlib

/-!
Verification development for the template-synchronization engine of the
tcex-cli repository: the manifest-diffing planner (`planner.py`), its
TCV-helper variant (`tcv_helper.py`), and the template merge / parent
resolution / cache staleness logic (`template_cli.py`).

Modelling conventions:
* File contents are `String`s; SHA-256 is modelled by an arbitrary
  function `hash : String → String` passed as a parameter (the code only
  ever compares digests for equality).
* A directory is an association list from POSIX-style relative path to
  file content; a `lookup` returning `none` models a missing file
  (exactly the `None` that `Hasher.sha256_file` returns for a missing
  path, and the `False` of `Path.exists`).
* A manifest (`manifest.json`, already parsed) is an association list
  from project-relative key to `FileMeta`, mirroring the `Meta` dict.
* The Python `sorted` builtin over strings is modelled by an insertion sort over
  the code-point lexicographic order on `String.data`.
-/

-- ==================================================================
-- String ordering helpers (model of the Python `sorted` builtin on str)
-- ==================================================================

/-- Code-point comparison of two characters, as Python compares str. -/
def charLtB (a b : Char) : Bool := a.val < b.val

/-- Lexicographic less-or-equal on character lists. -/
def charsLeB : List Char → List Char → Bool
  | [], _ => true
  | _ :: _, [] => false
  | a :: as, b :: bs => if a = b then charsLeB as bs else charLtB a b

/-- Lexicographic less-or-equal on strings (the Python `<=` on str). -/
def strLeB (a b : String) : Bool := charsLeB a.data b.data

/-- Model of the Python `str.startswith` method for a single prefix argument. -/
def strStartsWithB (s p : String) : Bool := List.isPrefixOf p.data s.data

/-- Insert an element into a sorted list (helper for `sortBy`). -/
def insertSorted {α : Type} (le : α → α → Bool) (a : α) : List α → List α
  | [] => [a]
  | b :: l => if le a b then a :: b :: l else b :: insertSorted le a l

/-- Insertion sort; models the Python `sorted` builtin given a total order `le`. -/
def sortBy {α : Type} (le : α → α → Bool) : List α → List α
  | [] => []
  | a :: l => insertSorted le a (sortBy le l)

theorem insertSorted_perm {α : Type} (le : α → α → Bool) (a : α) (l : List α) :
    (insertSorted le a l).Perm (a :: l) := by
  induction l with
  | nil => simp [insertSorted]
  | cons b l ih =>
    simp only [insertSorted]
    split
    · exact List.Perm.refl _
    · exact (ih.cons b).trans (List.Perm.swap a b l)

theorem sortBy_perm {α : Type} (le : α → α → Bool) (l : List α) :
    (sortBy le l).Perm l := by
  induction l with
  | nil => simp [sortBy]
  | cons a l ih => exact (insertSorted_perm le a (sortBy le l)).trans (ih.cons a)

theorem mem_sortBy {α : Type} (le : α → α → Bool) (l : List α) (a : α) :
    a ∈ sortBy le l ↔ a ∈ l := (sortBy_perm le l).mem_iff

-- ==================================================================
-- Data model (planner.py: FileMeta, Meta; directories as assoc lists)
-- ==================================================================

/-- Metadata for a single file in the manifest (planner.py `FileMeta`). -/
structure FileMeta where
  last_commit : String
  sha256 : String
  template_path : String
deriving DecidableEq, Repr

/-- A parsed manifest: key is a POSIX-style project-relative path. -/
abbrev Meta := List (String × FileMeta)

/-- A directory: relative path ↦ file content (bytes as `String`). -/
abbrev FS := List (String × String)

/-- Overwrite-or-create an entry of an association list: the model of
both a file write at an existing-or-new path and a Python dict
assignment. -/
def dictWrite {α β : Type} [DecidableEq α] (l : List (α × β)) (k : α) (v : β) :
    List (α × β) :=
  l.filter (fun e => decide (e.1 ≠ k)) ++ [(k, v)]

/-- Overwrite-or-create the file at `key` with `data` (a file write). -/
def fsWrite (fs : FS) (key : String) (data : String) : FS :=
  dictWrite fs key data

namespace Hasher

/-- planner.py `Hasher.sha256_file`: the SHA-256 hex digest of the file
at `p`, or `none` if the file does not exist. -/
def sha256_file (hash : String → String) (fs : FS) (p : String) : Option String :=
  (fs.lookup p).map hash

end Hasher

namespace ManifestStore

/-- planner.py `ManifestStore.collect_keys`: returns
`(keys_in_template, removed_in_template)`, both sorted; the second
component is the set difference local-keys minus template-keys. -/
def collect_keys (template_meta main_meta : Meta) : List String × List String :=
  let template_keys := (template_meta.map Prod.fst).dedup
  let main_keys := (main_meta.map Prod.fst).dedup
  (sortBy strLeB template_keys,
   sortBy strLeB (main_keys.filter (fun k => decide (k ∉ template_keys))))

end ManifestStore

-- ==================================================================
-- Plan model (planner.py `Plan`)
-- ==================================================================

/-- Update plan for template files; each list holds
`(project_relative_key, template_path)` pairs. -/
structure Plan where
  skip : List (String × String) := []
  auto_update : List (String × String) := []
  prompt_user : List (String × String) := []
  template_new : List (String × String) := []
  template_removed : List (String × String) := []
deriving DecidableEq, Repr

/-- The freshly constructed `Plan()` with all lists empty. -/
def Plan.empty : Plan := {}

/-- Field-wise concatenation of two plans (proof device for reasoning
about the per-key appends performed inside `Planner.build`). -/
def Plan.append (p q : Plan) : Plan where
  skip := p.skip ++ q.skip
  auto_update := p.auto_update ++ q.auto_update
  prompt_user := p.prompt_user ++ q.prompt_user
  template_new := p.template_new ++ q.template_new
  template_removed := p.template_removed ++ q.template_removed

theorem Plan.append_empty_right (p : Plan) : p.append Plan.empty = p := by
  cases p; simp [Plan.append, Plan.empty]

theorem Plan.append_assoc (p q r : Plan) :
    (p.append q).append r = p.append (q.append r) := by
  cases p; cases q; cases r; simp [Plan.append]

-- ==================================================================
-- Planner.build (planner.py lines 208-292)
-- ==================================================================

namespace Planner

/-- One iteration of the "updates and additions" loop of
`Planner.build` (planner.py lines 245-275), for a single `key` drawn
from `keys_in_template`.  The two sequential appends of the Python
`template_new` branch are written as a single record update with both
fields changed. -/
def updateStep (hash : String → String) (projectFS : FS)
    (template_meta local_meta : Meta) (force : Bool)
    (plan : Plan) (key : String) : Plan :=
  match template_meta.lookup key with
  | none => plan
  | some template_info =>
    let value := (key, template_info.template_path)
    if force then
      { plan with auto_update := plan.auto_update ++ [value] }
    else
      match local_meta.lookup key with
      | none =>
        -- new file being tracked in the template
        if (projectFS.lookup key).isSome then
          { plan with template_new := plan.template_new ++ [value],
                      prompt_user := plan.prompt_user ++ [value] }
        else
          { plan with template_new := plan.template_new ++ [value],
                      auto_update := plan.auto_update ++ [value] }
      | some local_info =>
        -- both sides have metadata and template has not changed this file
        if template_info.last_commit = local_info.last_commit then
          { plan with skip := plan.skip ++ [value] }
        else
          -- template changed; check if the local file also diverged
          let current_hash := Hasher.sha256_file hash projectFS key
          if current_hash = some template_info.sha256 ∨ current_hash = none then
            { plan with skip := plan.skip ++ [value] }
          else
            { plan with prompt_user := plan.prompt_user ++ [value] }

/-- One iteration of the "removals" loop of `Planner.build`
(planner.py lines 278-290), for a single `key` drawn from
`removed_in_template`.  The loop body in `tcv_helper.py` (lines
296-308) is textually identical, so both embeddings share it. -/
def removalStep (hash : String → String) (projectFS : FS)
    (local_meta : Meta) (plan : Plan) (key : String) : Plan :=
  match local_meta.lookup key with
  | none => plan
  | some local_info =>
    let value := (key, local_info.template_path)
    let current_hash := Hasher.sha256_file hash projectFS key
    match current_hash with
    | none =>
      { plan with template_removed := plan.template_removed ++ [value],
                  auto_update := plan.auto_update ++ [value] }
    | some h =>
      if h = local_info.sha256 then
        { plan with template_removed := plan.template_removed ++ [value],
                    auto_update := plan.auto_update ++ [value] }
      else
        { plan with template_removed := plan.template_removed ++ [value],
                    prompt_user := plan.prompt_user ++ [value] }

/-- planner.py `Planner.build`: compare the (already parsed) template
manifest against the local manifest and the on-disk project files,
classifying every key.  `projectFS` is the project directory `dest`. -/
def build (hash : String → String) (template_meta local_meta : Meta)
    (projectFS : FS) (force : Bool) : Plan :=
  let keys := ManifestStore.collect_keys template_meta local_meta
  let plan := keys.1.foldl (updateStep hash projectFS template_meta local_meta force) Plan.empty
  keys.2.foldl (removalStep hash projectFS local_meta) plan

end Planner

-- ==================================================================
-- TCV-helper Planner.build (tcv_helper.py lines 225-309)
-- ==================================================================

namespace TcvPlanner

/-- One iteration of the "Updates / Adds" loop of the `Planner.build`
variant in tcv_helper.py (lines 260-293).  Identical to
`Planner.updateStep` except for the extra `core/`/`ui/` branch that
auto-updates divergent files under those path prefixes. -/
def updateStep (hash : String → String) (projectFS : FS)
    (template_meta local_meta : Meta) (force : Bool)
    (plan : Plan) (key : String) : Plan :=
  match template_meta.lookup key with
  | none => plan
  | some template_info =>
    let value := (key, template_info.template_path)
    if force then
      { plan with auto_update := plan.auto_update ++ [value] }
    else
      match local_meta.lookup key with
      | none =>
        if (projectFS.lookup key).isSome then
          { plan with template_new := plan.template_new ++ [value],
                      prompt_user := plan.prompt_user ++ [value] }
        else
          { plan with template_new := plan.template_new ++ [value],
                      auto_update := plan.auto_update ++ [value] }
      | some local_info =>
        if template_info.last_commit = local_info.last_commit then
          { plan with skip := plan.skip ++ [value] }
        else
          let current_hash := Hasher.sha256_file hash projectFS key
          if current_hash = some template_info.sha256 ∨ current_hash = none then
            { plan with skip := plan.skip ++ [value] }
          else if strStartsWithB key "core/" || strStartsWithB key "ui/" then
            -- auto update all files tracked in the core or ui dirs
            { plan with auto_update := plan.auto_update ++ [value] }
          else
            { plan with prompt_user := plan.prompt_user ++ [value] }

/-- tcv_helper.py `Planner.build`; the removals loop is textually
identical to planner.py, so `Planner.removalStep` is reused. -/
def build (hash : String → String) (template_meta local_meta : Meta)
    (projectFS : FS) (force : Bool) : Plan :=
  let keys := ManifestStore.collect_keys template_meta local_meta
  let plan := keys.1.foldl (updateStep hash projectFS template_meta local_meta force) Plan.empty
  keys.2.foldl (Planner.removalStep hash projectFS local_meta) plan

end TcvPlanner

-- ==================================================================
-- SafeFileOps and Planner.apply (planner.py lines 144-182, 294-343)
-- ==================================================================

namespace SafeFileOps

/-- planner.py `SafeFileOps.copy_from_template`: raises (modelled as
`Except.error`) when the source is missing under the template root;
otherwise writes the source bytes at `destKey` in the project
directory.  Permission-bit handling has no observable effect on the
content model and is not represented. -/
def copy_from_template (templateFS : FS) (key : String)
    (projectFS : FS) (destKey : String) : Except String FS :=
  match templateFS.lookup key with
  | none => Except.error ("Template file does not exist: " ++ key)
  | some data => Except.ok (fsWrite projectFS destKey data)

/-- planner.py `SafeFileOps.remove_file`: delete if present, no-op if
absent. -/
def remove_file (projectFS : FS) (key : String) : FS :=
  projectFS.filter (fun e => decide (e.1 ≠ key))

end SafeFileOps

namespace Planner

/-- Lexicographic order on `(key, template_path)` pairs; the Python `sorted`
builtin over tuples of strings. -/
def pairLeB (a b : String × String) : Bool :=
  if a.1 = b.1 then strLeB a.2 b.2 else strLeB a.1 b.1

/-- Body of the auto-update loop of `Planner.apply` (planner.py lines
314-319): keys also listed in `template_removed` are deleted, all
others are copied from the template (`v = (local, template)`). -/
def applyOne (templateFS : FS) (removed_keys : List String)
    (projectFS : FS) (v : String × String) : Except String FS :=
  if v.1 ∈ removed_keys then
    Except.ok (SafeFileOps.remove_file projectFS v.1)
  else
    SafeFileOps.copy_from_template templateFS v.2 projectFS v.1

/-- Sequencing of `applyOne` over a list of entries; a raised
`FileNotFoundError` aborts the whole apply pass, as in Python. -/
def applyList (templateFS : FS) (removed_keys : List String) :
    List (String × String) → FS → Except String FS
  | [], fs => Except.ok fs
  | v :: vs, fs =>
    match applyOne templateFS removed_keys fs v with
    | Except.error e => Except.error e
    | Except.ok fs1 => applyList templateFS removed_keys vs fs1

/-- Body of the prompt loop of `Planner.apply` (planner.py lines
322-336): ask once per file; only a stripped, lowercased response of
`y` performs the removal/overwrite. -/
def promptOne (templateFS : FS) (removed_keys : List String)
    (prompt_fn : String → String) (fs : FS) (v : String × String) :
    Except String FS :=
  if v.1 ∈ removed_keys then
    if ((prompt_fn ("Remove modified file " ++ v.1 ++ "?")).trim.toLower) = "y" then
      Except.ok (SafeFileOps.remove_file fs v.1)
    else
      Except.ok fs
  else
    if ((prompt_fn ("Overwrite modified file " ++ v.1 ++ " from template?")).trim.toLower) = "y" then
      SafeFileOps.copy_from_template templateFS v.2 fs v.1
    else
      Except.ok fs

/-- Sequencing of `promptOne` over the sorted prompt entries. -/
def promptList (templateFS : FS) (removed_keys : List String)
    (prompt_fn : String → String) :
    List (String × String) → FS → Except String FS
  | [], fs => Except.ok fs
  | v :: vs, fs =>
    match promptOne templateFS removed_keys prompt_fn fs v with
    | Except.error e => Except.error e
    | Except.ok fs1 => promptList templateFS removed_keys prompt_fn vs fs1

/-- planner.py `Planner.apply`: auto-update entries are applied
unconditionally; prompt entries are confirmed one by one in sorted
order unless `force` is set, in which case they are applied like
auto-updates.  The Python `set(...)` builtin is modelled by `dedup` (iteration
order of a set is unspecified; the claims proved below do not depend
on it). -/
def apply (plan : Plan) (templateFS : FS) (projectFS : FS)
    (force : Bool) (prompt_fn : String → String) : Except String FS :=
  let auto_set := plan.auto_update.dedup
  let prompt_set := plan.prompt_user.dedup
  let removed_keys := (plan.template_removed.map Prod.fst).dedup
  match applyList templateFS removed_keys auto_set projectFS with
  | Except.error e => Except.error e
  | Except.ok fs1 =>
    if prompt_set ≠ [] ∧ force = false then
      promptList templateFS removed_keys prompt_fn (sortBy pairLeB prompt_set) fs1
    else if prompt_set ≠ [] ∧ force = true then
      applyList templateFS removed_keys prompt_set fs1
    else
      Except.ok fs1

end Planner

-- ==================================================================
-- Template merge (template_cli.py `_build_merged_template`, 434-513)
-- ==================================================================

/-- A path relative to a template source directory, as its list of
components (the Python `PurePath.parts` value); a regular file always has at
least one component. -/
abbrev RelPath := List String

/-- The regular files of one template source directory, in the order
`rglob` yields them: relative path ↦ content. -/
abbrev TDir := List (RelPath × String)

/-- The merged output: the files written into `merged_dir` (keyed by
final relative path) and the combined manifest (keyed by the string
form of that path). -/
structure MergedState where
  files : List (RelPath × String)
  manifest : Meta
deriving DecidableEq, Repr

/-- Overwrite-or-create an entry of the merged directory. -/
def relWrite (fs : List (RelPath × String)) (key : RelPath) (data : String) :
    List (RelPath × String) :=
  dictWrite fs key data

/-- Overwrite-or-create a manifest entry (Python dict assignment). -/
def metaWrite (m : Meta) (key : String) (v : FileMeta) : Meta :=
  dictWrite m key v

/-- Meta-files never copied into the merged output. -/
def skip_names : List String := ["template.yaml", ".gitignore", "tcex.json"]

/-- The `continue` conditions of the copy loop in
`_build_merged_template`: first path component in `skip_names`, the
top-level `manifest.json`, or `.appbuilderconfig` when the builder
asset was not requested. -/
def mergeExcluded (app_builder : Bool) (rel : RelPath) : Bool :=
  rel.headD "" ∈ skip_names
    || rel == ["manifest.json"]
    || (rel.headD "" == ".appbuilderconfig" && !app_builder)

/-- The gitignore rename rule: a final component `gitignore` is
rewritten to its dotfile form on copy. -/
def renameGitignore (rel : RelPath) : RelPath :=
  if rel.getLastD "" = "gitignore" then rel.dropLast ++ [".gitignore"] else rel

/-- One file copy of the merge loop: skip excluded paths, apply the
gitignore rename, write the file into the merged dir, and write a
fresh manifest entry re-hashed from the just-copied content (the
digest stands in for both `sha256` and `last_commit`). -/
def mergeFile (hash : String → String) (app_builder : Bool)
    (st : MergedState) (f : RelPath × String) : MergedState :=
  if mergeExcluded app_builder f.1 then st
  else
    let rel := renameGitignore f.1
    let rel_key := String.intercalate "/" rel
    let file_hash := hash f.2
    { files := relWrite st.files rel f.2,
      manifest := metaWrite st.manifest rel_key ⟨file_hash, file_hash, rel_key⟩ }

/-- Copy every regular file of one ancestor directory (the inner
`rglob` loop of `_build_merged_template`). -/
def mergeDir (hash : String → String) (app_builder : Bool)
    (st : MergedState) (dir : TDir) : MergedState :=
  dir.foldl (mergeFile hash app_builder) st

/-- The outer loop of `_build_merged_template`: walk the resolved
ancestor sequence in order; a parent whose source directory is missing
from the cache is logged and skipped. `cache` maps a template name to
its source directory (absorbing the `_app_common` root-vs-type path
special case, which only affects where the directory is found). -/
def mergeParents (hash : String → String) (cache : List (String × TDir))
    (app_builder : Bool) (parents : List String) : MergedState :=
  parents.foldl
    (fun st parent_name =>
      match cache.lookup parent_name with
      | none => st
      | some dir => mergeDir hash app_builder st dir)
    ⟨[], []⟩

-- ==================================================================
-- Parent-chain resolution (template_cli.py
-- `resolve_template_parents`, lines 548-587)
-- ==================================================================

/-- The `template_parents` declarations: template name ↦ its declared
parent list.  A name with no entry models `read_template_config`
returning `None` (unreadable descriptor): the name is still appended
so file copy can proceed. -/
abbrev Cfg := List (String × List String)

/-- State of the recursive resolution: the `seen` guard set and the
ancestors-first `resolved` output list. -/
structure RState where
  seen : List String
  resolved : List String
deriving DecidableEq, Repr

/-- All template names mentioned anywhere in the configuration. -/
def cfgNames (cfg : Cfg) : List String :=
  (cfg.map Prod.fst ++ cfg.flatMap Prod.snd).dedup

/-- Number of configured names not yet in `seen`; the quantity the
`seen` guard strictly decreases on every re-expansion. -/
def unseenCount (cfg : Cfg) (seen : List String) : Nat :=
  ((cfgNames cfg).filter (fun n => decide (n ∉ seen))).length

/-- The inner `_resolve` recursion of `resolve_template_parents`,
with an explicit recursion budget.  A visited name is never
re-expanded; an unreadable config appends the name without recursing;
otherwise every declared parent is resolved before the name itself is
appended.  `resolveGo_stable` below shows the budget
`(cfgNames cfg).length + 1` is never exhausted: more fuel never
changes the result, which is the formal content of termination on
every parent graph, cycles included. -/
def resolveGo (cfg : Cfg) : Nat → String → RState → RState
  | 0, _, st => st
  | fuel + 1, name, st =>
    if name ∈ st.seen then st
    else
      match cfg.lookup name with
      | none => ⟨name :: st.seen, st.resolved ++ [name]⟩
      | some parents =>
        let st2 := parents.foldl (fun s p => resolveGo cfg fuel p s) ⟨name :: st.seen, st.resolved⟩
        ⟨st2.seen, st2.resolved ++ [name]⟩

/-- template_cli.py `resolve_template_parents`: the full ancestor
chain, ancestors first, requested template last. -/
def resolve_template_parents (cfg : Cfg) (template_name : String) : List String :=
  (resolveGo cfg ((cfgNames cfg).length + 1) template_name ⟨[], []⟩).resolved

/-- template_cli.py `_build_merged_template`: resolve the parent chain
and merge every ancestor directory, leaf last. -/
def build_merged_template (hash : String → String) (cache : List (String × TDir))
    (cfg : Cfg) (template_name : String) (app_builder : Bool) : MergedState :=
  mergeParents hash cache app_builder (resolve_template_parents cfg template_name)

-- ==================================================================
-- Cache staleness (template_cli.py `_cache_is_stale`, lines 314-335)
-- ==================================================================

/-- A parsed Python datetime as far as the staleness check can
observe it: its instant on a fixed timeline plus whether it is
offset-aware.  `datetime.fromisoformat` returns an offset-naive value
when the string carries no UTC offset, and comparing an offset-naive
datetime with an offset-aware one raises `TypeError`. -/
structure PyDatetime where
  aware : Bool
  value : Int
deriving DecidableEq, Repr

/-- template_cli.py `_cache_is_stale`.  `cacheExists` is
`cache_dir.exists()`; `remoteDate` is the result of
`_remote_commit_date` (`none` on any API failure); `parseIso` models
`datetime.fromisoformat` (`none` when parsing raises `ValueError` or
`AttributeError`, the two exceptions the source catches); `cacheMtime`
is the mtime of the cache directory, always offset-aware because it is
built with `tz=UTC`.  The final comparison `remote_dt > cache_mtime`
happens outside the `try`/`except`: when the parsed remote timestamp
is offset-naive that comparison raises an uncaught `TypeError`,
modelled as `Except.error`. -/
def cache_is_stale (cacheExists : Bool) (remoteDate : Option String)
    (parseIso : String → Option PyDatetime) (cacheMtime : Int) :
    Except String Bool :=
  if !cacheExists then Except.ok true
  else
    match remoteDate with
    | none => Except.ok false
    | some remote_date =>
      match parseIso (remote_date.replace "Z" "+00:00") with
      | none => Except.ok false
      | some remote_dt =>
        if remote_dt.aware then
          Except.ok (decide (remote_dt.value > cacheMtime))
        else
          Except.error "TypeError: cannot compare offset-naive and offset-aware datetimes"

-- ==================================================================
-- State-threaded Planner.build (frame property of C10)
-- ==================================================================

/-- The filesystem world visible to `Planner.build`: the two parsed
manifest files plus the raw files of the merged template directory and
of the project directory. -/
structure World where
  templateManifest : Meta
  localManifest : Meta
  templateFiles : FS
  projectFiles : FS
deriving DecidableEq

/-- `ManifestStore.load_json(temp_dest / file_name)`: a pure read. -/
def loadTemplateManifestM (w : World) : Meta × World := (w.templateManifest, w)

/-- `ManifestStore.load_json(dest / file_name)`: a pure read. -/
def loadLocalManifestM (w : World) : Meta × World := (w.localManifest, w)

/-- `Hasher.sha256_file(dest / key)`: opens the project file read-only
and digests it; a pure read of the world. -/
def sha256FileM (hash : String → String) (key : String) (w : World) :
    Option String × World :=
  ((w.projectFiles.lookup key).map hash, w)

/-- `project_path.exists()`: a pure read of the world. -/
def pathExistsM (key : String) (w : World) : Bool × World :=
  ((w.projectFiles.lookup key).isSome, w)

namespace Planner

/-- `Planner.updateStep` with the world threaded through every
filesystem access it performs. -/
def updateStepM (hash : String → String) (template_meta local_meta : Meta)
    (force : Bool) (pw : Plan × World) (key : String) : Plan × World :=
  match template_meta.lookup key with
  | none => pw
  | some template_info =>
    let value := (key, template_info.template_path)
    if force then
      ({ pw.1 with auto_update := pw.1.auto_update ++ [value] }, pw.2)
    else
      match local_meta.lookup key with
      | none =>
        let r := pathExistsM key pw.2
        if r.1 then
          ({ pw.1 with template_new := pw.1.template_new ++ [value],
                       prompt_user := pw.1.prompt_user ++ [value] }, r.2)
        else
          ({ pw.1 with template_new := pw.1.template_new ++ [value],
                       auto_update := pw.1.auto_update ++ [value] }, r.2)
      | some local_info =>
        if template_info.last_commit = local_info.last_commit then
          ({ pw.1 with skip := pw.1.skip ++ [value] }, pw.2)
        else
          let r := sha256FileM hash key pw.2
          if r.1 = some template_info.sha256 ∨ r.1 = none then
            ({ pw.1 with skip := pw.1.skip ++ [value] }, r.2)
          else
            ({ pw.1 with prompt_user := pw.1.prompt_user ++ [value] }, r.2)

/-- `Planner.removalStep` with the world threaded through. -/
def removalStepM (hash : String → String) (local_meta : Meta)
    (pw : Plan × World) (key : String) : Plan × World :=
  match local_meta.lookup key with
  | none => pw
  | some local_info =>
    let value := (key, local_info.template_path)
    let r := sha256FileM hash key pw.2
    match r.1 with
    | none =>
      ({ pw.1 with template_removed := pw.1.template_removed ++ [value],
                   auto_update := pw.1.auto_update ++ [value] }, r.2)
    | some h =>
      if h = local_info.sha256 then
        ({ pw.1 with template_removed := pw.1.template_removed ++ [value],
                     auto_update := pw.1.auto_update ++ [value] }, r.2)
      else
        ({ pw.1 with template_removed := pw.1.template_removed ++ [value],
                     prompt_user := pw.1.prompt_user ++ [value] }, r.2)

/-- planner.py `Planner.build` as a world transformer: every
filesystem access it performs (the two manifest loads, the per-key
hashing and existence checks) is threaded through the state so that
the frame property of `build` is expressible. -/
def buildM (hash : String → String) (force : Bool) (w : World) : Plan × World :=
  let r1 := loadTemplateManifestM w
  let r2 := loadLocalManifestM r1.2
  let keys := ManifestStore.collect_keys r1.1 r2.1
  let pw := keys.1.foldl (updateStepM hash r1.1 r2.1 force) (Plan.empty, r2.2)
  keys.2.foldl (removalStepM hash r2.1) pw

end Planner

namespace TcvPlanner

/-- tcv_helper.py `Planner.updateStep` with the world threaded
through; the extra `core/`/`ui/` branch performs no filesystem
access. -/
def updateStepM (hash : String → String) (template_meta local_meta : Meta)
    (force : Bool) (pw : Plan × World) (key : String) : Plan × World :=
  match template_meta.lookup key with
  | none => pw
  | some template_info =>
    let value := (key, template_info.template_path)
    if force then
      ({ pw.1 with auto_update := pw.1.auto_update ++ [value] }, pw.2)
    else
      match local_meta.lookup key with
      | none =>
        let r := pathExistsM key pw.2
        if r.1 then
          ({ pw.1 with template_new := pw.1.template_new ++ [value],
                       prompt_user := pw.1.prompt_user ++ [value] }, r.2)
        else
          ({ pw.1 with template_new := pw.1.template_new ++ [value],
                       auto_update := pw.1.auto_update ++ [value] }, r.2)
      | some local_info =>
        if template_info.last_commit = local_info.last_commit then
          ({ pw.1 with skip := pw.1.skip ++ [value] }, pw.2)
        else
          let r := sha256FileM hash key pw.2
          if r.1 = some template_info.sha256 ∨ r.1 = none then
            ({ pw.1 with skip := pw.1.skip ++ [value] }, r.2)
          else if strStartsWithB key "core/" || strStartsWithB key "ui/" then
            ({ pw.1 with auto_update := pw.1.auto_update ++ [value] }, r.2)
          else
            ({ pw.1 with prompt_user := pw.1.prompt_user ++ [value] }, r.2)

/-- tcv_helper.py `Planner.build` as a world transformer. -/
def buildM (hash : String → String) (force : Bool) (w : World) : Plan × World :=
  let r1 := loadTemplateManifestM w
  let r2 := loadLocalManifestM r1.2
  let keys := ManifestStore.collect_keys r1.1 r2.1
  let pw := keys.1.foldl (updateStepM hash r1.1 r2.1 force) (Plan.empty, r2.2)
  keys.2.foldl (Planner.removalStepM hash r2.1) pw

end TcvPlanner

-- ==================================================================
-- Association-list lookup lemmas
-- ==================================================================

theorem lookup_eq_none_iff {α β : Type} [BEq α] [LawfulBEq α]
    (l : List (α × β)) (k : α) :
    l.lookup k = none ↔ k ∉ l.map Prod.fst := by
  induction l with
  | nil => simp [List.lookup]
  | cons e l ih =>
    rcases e with ⟨a, b⟩
    by_cases h : k = a
    · subst h
      simp [List.lookup]
    · simp only [List.lookup, beq_eq_false_iff_ne, ne_eq, h, not_false_eq_true,
        beq_iff_eq, if_neg]
      simp only [List.map_cons, List.mem_cons, h, false_or]
      simpa [show (k == a) = false by simpa using h] using ih

theorem exists_lookup_some_of_mem_fst {α β : Type} [BEq α] [LawfulBEq α]
    {l : List (α × β)} {k : α} (h : k ∈ l.map Prod.fst) :
    ∃ v, l.lookup k = some v := by
  rcases ho : l.lookup k with _ | v
  · exact absurd h ((lookup_eq_none_iff l k).mp ho)
  · exact ⟨v, rfl⟩

theorem mem_fst_of_lookup_some {α β : Type} [BEq α] [LawfulBEq α]
    {l : List (α × β)} {k : α} {v : β} (h : l.lookup k = some v) :
    k ∈ l.map Prod.fst := by
  by_contra hk
  rw [← lookup_eq_none_iff l k] at hk
  simp [h] at hk

-- ==================================================================
-- collect_keys membership lemmas
-- ==================================================================

theorem mem_keys_in_template (template_meta main_meta : Meta) (k : String) :
    k ∈ (ManifestStore.collect_keys template_meta main_meta).1
      ↔ k ∈ template_meta.map Prod.fst := by
  simp [ManifestStore.collect_keys, mem_sortBy, List.mem_dedup]

theorem mem_removed_in_template (template_meta main_meta : Meta) (k : String) :
    k ∈ (ManifestStore.collect_keys template_meta main_meta).2
      ↔ k ∈ main_meta.map Prod.fst ∧ k ∉ template_meta.map Prod.fst := by
  simp [ManifestStore.collect_keys, mem_sortBy, List.mem_filter, List.mem_dedup]

-- ==================================================================
-- Per-key decomposition of the build folds
-- ==================================================================

theorem Planner.updateStep_append (hash : String → String) (projectFS : FS)
    (template_meta local_meta : Meta) (force : Bool) (p : Plan) (k : String) :
    Planner.updateStep hash projectFS template_meta local_meta force p k
      = p.append (Planner.updateStep hash projectFS template_meta local_meta force Plan.empty k) := by
  unfold Planner.updateStep
  rcases htm : template_meta.lookup k with _ | t
  · simp [Plan.append_empty_right]
  · cases force
    · rcases hlm : local_meta.lookup k with _ | l
      · rcases hex : (projectFS.lookup k).isSome
        · cases p; simp [hex, Plan.append, Plan.empty]
        · cases p; simp [hex, Plan.append, Plan.empty]
      · by_cases hc : t.last_commit = l.last_commit
        · cases p; simp [hc, Plan.append, Plan.empty]
        · by_cases hh : Hasher.sha256_file hash projectFS k = some t.sha256
              ∨ Hasher.sha256_file hash projectFS k = none
          · cases p; simp [hc, hh, Plan.append, Plan.empty]
          · cases p; simp [hc, hh, Plan.append, Plan.empty]
    · cases p; simp [Plan.append, Plan.empty]

theorem TcvPlanner.tcvUpdateStep_append (hash : String → String) (projectFS : FS)
    (template_meta local_meta : Meta) (force : Bool) (p : Plan) (k : String) :
    TcvPlanner.updateStep hash projectFS template_meta local_meta force p k
      = p.append (TcvPlanner.updateStep hash projectFS template_meta local_meta force Plan.empty k) := by
  unfold TcvPlanner.updateStep
  rcases htm : template_meta.lookup k with _ | t
  · simp [Plan.append_empty_right]
  · cases force
    · rcases hlm : local_meta.lookup k with _ | l
      · rcases hex : (projectFS.lookup k).isSome
        · cases p; simp [hex, Plan.append, Plan.empty]
        · cases p; simp [hex, Plan.append, Plan.empty]
      · by_cases hc : t.last_commit = l.last_commit
        · cases p; simp [hc, Plan.append, Plan.empty]
        · by_cases hh : Hasher.sha256_file hash projectFS k = some t.sha256
              ∨ Hasher.sha256_file hash projectFS k = none
          · cases p; simp [hc, hh, Plan.append, Plan.empty]
          · rcases hpre : strStartsWithB k "core/" || strStartsWithB k "ui/"
            · cases p; simp [hc, hh, hpre, Plan.append, Plan.empty]
            · cases p; simp [hc, hh, hpre, Plan.append, Plan.empty]
    · cases p; simp [Plan.append, Plan.empty]

theorem Planner.removalStep_append (hash : String → String) (projectFS : FS)
    (local_meta : Meta) (p : Plan) (k : String) :
    Planner.removalStep hash projectFS local_meta p k
      = p.append (Planner.removalStep hash projectFS local_meta Plan.empty k) := by
  unfold Planner.removalStep
  rcases hlm : local_meta.lookup k with _ | l
  · simp [Plan.append_empty_right]
  · rcases hh : Hasher.sha256_file hash projectFS k with _ | d
    · cases p; simp [Plan.append, Plan.empty]
    · by_cases he : d = l.sha256
      · cases p; simp [he, Plan.append, Plan.empty]
      · cases p; simp [he, Plan.append, Plan.empty]

/-- Membership in one field of a left fold of a step that appends its
per-key contributions. -/
theorem mem_field_foldl (g : Plan → List (String × String))
    (hg : ∀ p q : Plan, g (p.append q) = g p ++ g q)
    (step : Plan → String → Plan)
    (hstep : ∀ (p : Plan) (k : String), step p k = p.append (step Plan.empty k)) :
    ∀ (keys : List String) (p : Plan) (v : String × String),
      v ∈ g (keys.foldl step p) ↔ v ∈ g p ∨ ∃ k ∈ keys, v ∈ g (step Plan.empty k) := by
  intro keys
  induction keys with
  | nil => intro p v; simp
  | cons k ks ih =>
    intro p v
    rw [List.foldl_cons, ih (step p k) v, hstep p k, hg]
    simp only [List.mem_append, List.mem_cons]
    constructor
    · rintro ((h | h) | ⟨k1, hk1, hv⟩)
      · exact Or.inl h
      · exact Or.inr ⟨k, Or.inl rfl, h⟩
      · exact Or.inr ⟨k1, Or.inr hk1, hv⟩
    · rintro (h | ⟨k1, (rfl | hk1), hv⟩)
      · exact Or.inl (Or.inl h)
      · exact Or.inl (Or.inr hv)
      · exact Or.inr ⟨k1, hk1, hv⟩

/-- Membership in a field of `Planner.build`, decomposed into the
per-key contributions of the two loops. -/
theorem Planner.mem_field_build (g : Plan → List (String × String))
    (hg : ∀ p q : Plan, g (p.append q) = g p ++ g q)
    (hge : g Plan.empty = [])
    (hash : String → String) (template_meta local_meta : Meta) (projectFS : FS)
    (force : Bool) (v : String × String) :
    v ∈ g (Planner.build hash template_meta local_meta projectFS force)
      ↔ (∃ k ∈ (ManifestStore.collect_keys template_meta local_meta).1,
            v ∈ g (Planner.updateStep hash projectFS template_meta local_meta force Plan.empty k))
        ∨ (∃ k ∈ (ManifestStore.collect_keys template_meta local_meta).2,
            v ∈ g (Planner.removalStep hash projectFS local_meta Plan.empty k)) := by
  unfold Planner.build
  rw [mem_field_foldl g hg _ (Planner.removalStep_append hash projectFS local_meta),
    mem_field_foldl g hg _ (Planner.updateStep_append hash projectFS template_meta local_meta force)]
  simp [hge, or_comm]

/-- Membership in a field of the tcv_helper `build`, decomposed into
the per-key contributions of its two loops. -/
theorem TcvPlanner.tcv_mem_field_build (g : Plan → List (String × String))
    (hg : ∀ p q : Plan, g (p.append q) = g p ++ g q)
    (hge : g Plan.empty = [])
    (hash : String → String) (template_meta local_meta : Meta) (projectFS : FS)
    (force : Bool) (v : String × String) :
    v ∈ g (TcvPlanner.build hash template_meta local_meta projectFS force)
      ↔ (∃ k ∈ (ManifestStore.collect_keys template_meta local_meta).1,
            v ∈ g (TcvPlanner.updateStep hash projectFS template_meta local_meta force Plan.empty k))
        ∨ (∃ k ∈ (ManifestStore.collect_keys template_meta local_meta).2,
            v ∈ g (Planner.removalStep hash projectFS local_meta Plan.empty k)) := by
  unfold TcvPlanner.build
  rw [mem_field_foldl g hg _ (Planner.removalStep_append hash projectFS local_meta),
    mem_field_foldl g hg _ (TcvPlanner.tcvUpdateStep_append hash projectFS template_meta local_meta force)]
  simp [hge, or_comm]

-- ==================================================================
-- dictWrite lookup lemmas
-- ==================================================================

theorem lookup_dictWrite_self {α β : Type} [DecidableEq α] [BEq α] [LawfulBEq α]
    (l : List (α × β)) (k : α) (v : β) :
    (dictWrite l k v).lookup k = some v := by
  induction l with
  | nil => simp [dictWrite, List.lookup]
  | cons e l ih =>
    rcases e with ⟨a, b⟩
    by_cases h : a = k
    · simpa [dictWrite, h] using ih
    · simpa [dictWrite, h, List.lookup, show (k == a) = false by simpa using (Ne.symm h)]
        using ih

theorem lookup_dictWrite_other {α β : Type} [DecidableEq α] [BEq α] [LawfulBEq α]
    (l : List (α × β)) (k k1 : α) (v : β) (hne : k1 ≠ k) :
    (dictWrite l k v).lookup k1 = l.lookup k1 := by
  induction l with
  | nil => simp [dictWrite, List.lookup, show (k1 == k) = false by simpa using hne]
  | cons e l ih =>
    rcases e with ⟨a, b⟩
    by_cases h : a = k
    · subst h
      simpa [dictWrite, List.lookup, show (k1 == a) = false by simpa using hne] using ih
    · by_cases h1 : k1 = a
      · subst h1
        simp [dictWrite, h, List.lookup]
      · simpa [dictWrite, h, List.lookup, show (k1 == a) = false by simpa using h1] using ih

-- ==================================================================
-- Per-branch evaluations of the build step functions on `Plan.empty`
-- ==================================================================

theorem Planner.updateStep_empty_force (hash : String → String) (projectFS : FS)
    (template_meta local_meta : Meta) (k : String) (t : FileMeta)
    (hT : template_meta.lookup k = some t) :
    Planner.updateStep hash projectFS template_meta local_meta true Plan.empty k
      = { auto_update := [(k, t.template_path)] } := by
  unfold Planner.updateStep
  simp [hT, Plan.empty]

theorem Planner.updateStep_empty_new_exists (hash : String → String) (projectFS : FS)
    (template_meta local_meta : Meta) (k : String) (t : FileMeta)
    (hT : template_meta.lookup k = some t)
    (hL : local_meta.lookup k = none)
    (hex : (projectFS.lookup k).isSome = true) :
    Planner.updateStep hash projectFS template_meta local_meta false Plan.empty k
      = { prompt_user := [(k, t.template_path)],
          template_new := [(k, t.template_path)] } := by
  unfold Planner.updateStep
  simp [hT, hL, hex, Plan.empty]

theorem Planner.updateStep_empty_new_missing (hash : String → String) (projectFS : FS)
    (template_meta local_meta : Meta) (k : String) (t : FileMeta)
    (hT : template_meta.lookup k = some t)
    (hL : local_meta.lookup k = none)
    (hex : projectFS.lookup k = none) :
    Planner.updateStep hash projectFS template_meta local_meta false Plan.empty k
      = { auto_update := [(k, t.template_path)],
          template_new := [(k, t.template_path)] } := by
  unfold Planner.updateStep
  simp [hT, hL, hex, Plan.empty]

theorem Planner.updateStep_empty_same_commit (hash : String → String) (projectFS : FS)
    (template_meta local_meta : Meta) (k : String) (t l : FileMeta)
    (hT : template_meta.lookup k = some t)
    (hL : local_meta.lookup k = some l)
    (hc : t.last_commit = l.last_commit) :
    Planner.updateStep hash projectFS template_meta local_meta false Plan.empty k
      = { skip := [(k, t.template_path)] } := by
  unfold Planner.updateStep
  simp [hT, hL, hc, Plan.empty]

theorem Planner.updateStep_empty_changed_skip (hash : String → String) (projectFS : FS)
    (template_meta local_meta : Meta) (k : String) (t l : FileMeta)
    (hT : template_meta.lookup k = some t)
    (hL : local_meta.lookup k = some l)
    (hc : t.last_commit ≠ l.last_commit)
    (hh : Hasher.sha256_file hash projectFS k = some t.sha256
        ∨ Hasher.sha256_file hash projectFS k = none) :
    Planner.updateStep hash projectFS template_meta local_meta false Plan.empty k
      = { skip := [(k, t.template_path)] } := by
  unfold Planner.updateStep
  simp only [hT, hL, if_neg hc, Bool.false_eq_true, if_false]
  rw [if_pos hh]
  simp [Plan.empty]

theorem Planner.updateStep_empty_divergent (hash : String → String) (projectFS : FS)
    (template_meta local_meta : Meta) (k : String) (t l : FileMeta) (d : String)
    (hT : template_meta.lookup k = some t)
    (hL : local_meta.lookup k = some l)
    (hc : t.last_commit ≠ l.last_commit)
    (hfs : projectFS.lookup k = some d)
    (hne : hash d ≠ t.sha256) :
    Planner.updateStep hash projectFS template_meta local_meta false Plan.empty k
      = { prompt_user := [(k, t.template_path)] } := by
  unfold Planner.updateStep
  simp [hT, hL, hc, Hasher.sha256_file, hfs, hne, Plan.empty]

theorem TcvPlanner.updateStep_empty_divergent_pre (hash : String → String) (projectFS : FS)
    (template_meta local_meta : Meta) (k : String) (t l : FileMeta) (d : String)
    (hT : template_meta.lookup k = some t)
    (hL : local_meta.lookup k = some l)
    (hc : t.last_commit ≠ l.last_commit)
    (hfs : projectFS.lookup k = some d)
    (hne : hash d ≠ t.sha256)
    (hpre : (strStartsWithB k "core/" || strStartsWithB k "ui/") = true) :
    TcvPlanner.updateStep hash projectFS template_meta local_meta false Plan.empty k
      = { auto_update := [(k, t.template_path)] } := by
  unfold TcvPlanner.updateStep
  simp [hT, hL, hc, Hasher.sha256_file, hfs, hne, hpre, Plan.empty]

theorem Planner.removalStep_empty_missing (hash : String → String) (projectFS : FS)
    (local_meta : Meta) (k : String) (l : FileMeta)
    (hL : local_meta.lookup k = some l)
    (hfs : projectFS.lookup k = none) :
    Planner.removalStep hash projectFS local_meta Plan.empty k
      = { auto_update := [(k, l.template_path)],
          template_removed := [(k, l.template_path)] } := by
  unfold Planner.removalStep
  simp [hL, Hasher.sha256_file, hfs, Plan.empty]

theorem Planner.removalStep_empty_unchanged (hash : String → String) (projectFS : FS)
    (local_meta : Meta) (k : String) (l : FileMeta) (d : String)
    (hL : local_meta.lookup k = some l)
    (hfs : projectFS.lookup k = some d)
    (he : hash d = l.sha256) :
    Planner.removalStep hash projectFS local_meta Plan.empty k
      = { auto_update := [(k, l.template_path)],
          template_removed := [(k, l.template_path)] } := by
  unfold Planner.removalStep
  simp [hL, Hasher.sha256_file, hfs, he, Plan.empty]

theorem Planner.removalStep_empty_modified (hash : String → String) (projectFS : FS)
    (local_meta : Meta) (k : String) (l : FileMeta) (d : String)
    (hL : local_meta.lookup k = some l)
    (hfs : projectFS.lookup k = some d)
    (he : hash d ≠ l.sha256) :
    Planner.removalStep hash projectFS local_meta Plan.empty k
      = { prompt_user := [(k, l.template_path)],
          template_removed := [(k, l.template_path)] } := by
  unfold Planner.removalStep
  simp [hL, Hasher.sha256_file, hfs, he, Plan.empty]

-- ==================================================================
-- Shape facts about the per-key contributions
-- ==================================================================

/-- Every pair a single `updateStep` iteration appends, in any field,
has the iterated key as its first component. -/
theorem Planner.updateStep_fst (hash : String → String) (projectFS : FS)
    (template_meta local_meta : Meta) (force : Bool) (k : String) (v : String × String)
    (hv : v ∈ (Planner.updateStep hash projectFS template_meta local_meta force Plan.empty k).skip
        ∨ v ∈ (Planner.updateStep hash projectFS template_meta local_meta force Plan.empty k).auto_update
        ∨ v ∈ (Planner.updateStep hash projectFS template_meta local_meta force Plan.empty k).prompt_user
        ∨ v ∈ (Planner.updateStep hash projectFS template_meta local_meta force Plan.empty k).template_new
        ∨ v ∈ (Planner.updateStep hash projectFS template_meta local_meta force Plan.empty k).template_removed) :
    v.1 = k := by
  unfold Planner.updateStep at hv
  rcases htm : template_meta.lookup k with _ | t <;> rw [htm] at hv
  · simp [Plan.empty] at hv
  · cases force
    · rcases hlm : local_meta.lookup k with _ | l <;> rw [hlm] at hv
      · rcases hex : (projectFS.lookup k).isSome <;>
          simp only [Bool.false_eq_true, hex, if_true, if_false] at hv <;>
          · rcases hv with hv | hv | hv | hv | hv <;> simp [Plan.empty] at hv <;>
              simp [hv]
      · by_cases hc : t.last_commit = l.last_commit
        · simp only [if_pos hc] at hv
          rcases hv with hv | hv | hv | hv | hv <;> simp [Plan.empty] at hv <;> simp [hv]
        · simp only [if_neg hc] at hv
          by_cases hh : Hasher.sha256_file hash projectFS k = some t.sha256
              ∨ Hasher.sha256_file hash projectFS k = none
          · rw [if_pos hh] at hv
            rcases hv with hv | hv | hv | hv | hv <;> simp [Plan.empty] at hv <;> simp [hv]
          · rw [if_neg hh] at hv
            rcases hv with hv | hv | hv | hv | hv <;> simp [Plan.empty] at hv <;> simp [hv]
    · rcases hv with hv | hv | hv | hv | hv <;> simp [Plan.empty] at hv <;> simp [hv]

/-- Every pair a single tcv `updateStep` iteration appends, in any
field, has the iterated key as its first component. -/
theorem TcvPlanner.tcvUpdateStep_fst (hash : String → String) (projectFS : FS)
    (template_meta local_meta : Meta) (force : Bool) (k : String) (v : String × String)
    (hv : v ∈ (TcvPlanner.updateStep hash projectFS template_meta local_meta force Plan.empty k).skip
        ∨ v ∈ (TcvPlanner.updateStep hash projectFS template_meta local_meta force Plan.empty k).auto_update
        ∨ v ∈ (TcvPlanner.updateStep hash projectFS template_meta local_meta force Plan.empty k).prompt_user
        ∨ v ∈ (TcvPlanner.updateStep hash projectFS template_meta local_meta force Plan.empty k).template_new
        ∨ v ∈ (TcvPlanner.updateStep hash projectFS template_meta local_meta force Plan.empty k).template_removed) :
    v.1 = k := by
  unfold TcvPlanner.updateStep at hv
  rcases htm : template_meta.lookup k with _ | t <;> rw [htm] at hv
  · simp [Plan.empty] at hv
  · cases force
    · rcases hlm : local_meta.lookup k with _ | l <;> rw [hlm] at hv
      · rcases hex : (projectFS.lookup k).isSome <;>
          simp only [Bool.false_eq_true, hex, if_true, if_false] at hv <;>
          · rcases hv with hv | hv | hv | hv | hv <;> simp [Plan.empty] at hv <;>
              simp [hv]
      · by_cases hc : t.last_commit = l.last_commit
        · simp only [if_pos hc] at hv
          rcases hv with hv | hv | hv | hv | hv <;> simp [Plan.empty] at hv <;> simp [hv]
        · simp only [if_neg hc] at hv
          by_cases hh : Hasher.sha256_file hash projectFS k = some t.sha256
              ∨ Hasher.sha256_file hash projectFS k = none
          · rw [if_pos hh] at hv
            rcases hv with hv | hv | hv | hv | hv <;> simp [Plan.empty] at hv <;> simp [hv]
          · rw [if_neg hh] at hv
            rcases hpre : strStartsWithB k "core/" || strStartsWithB k "ui/" <;>
              simp only [hpre, Bool.false_eq_true, if_true, if_false] at hv <;>
              · rcases hv with hv | hv | hv | hv | hv <;> simp [Plan.empty] at hv <;>
                  simp [hv]
    · rcases hv with hv | hv | hv | hv | hv <;> simp [Plan.empty] at hv <;> simp [hv]

/-- Every pair a single `removalStep` iteration appends, in any field,
has the iterated key as its first component. -/
theorem Planner.removalStep_fst (hash : String → String) (projectFS : FS)
    (local_meta : Meta) (k : String) (v : String × String)
    (hv : v ∈ (Planner.removalStep hash projectFS local_meta Plan.empty k).skip
        ∨ v ∈ (Planner.removalStep hash projectFS local_meta Plan.empty k).auto_update
        ∨ v ∈ (Planner.removalStep hash projectFS local_meta Plan.empty k).prompt_user
        ∨ v ∈ (Planner.removalStep hash projectFS local_meta Plan.empty k).template_new
        ∨ v ∈ (Planner.removalStep hash projectFS local_meta Plan.empty k).template_removed) :
    v.1 = k := by
  unfold Planner.removalStep at hv
  rcases hlm : local_meta.lookup k with _ | l <;> rw [hlm] at hv
  · simp [Plan.empty] at hv
  · rcases hh : Hasher.sha256_file hash projectFS k with _ | d <;>
      simp only [hh] at hv
    · rcases hv with hv | hv | hv | hv | hv <;> simp [Plan.empty] at hv <;> simp [hv]
    · by_cases he : d = l.sha256
      · rw [if_pos he] at hv
        rcases hv with hv | hv | hv | hv | hv <;> simp [Plan.empty] at hv <;> simp [hv]
      · rw [if_neg he] at hv
        rcases hv with hv | hv | hv | hv | hv <;> simp [Plan.empty] at hv <;> simp [hv]

/-- A `removalStep` iteration never touches the `skip` list. -/
theorem Planner.removalStep_skip (hash : String → String) (projectFS : FS)
    (local_meta : Meta) (k : String) :
    (Planner.removalStep hash projectFS local_meta Plan.empty k).skip = [] := by
  unfold Planner.removalStep
  rcases hlm : local_meta.lookup k with _ | l
  · simp [Plan.empty]
  · rcases hh : Hasher.sha256_file hash projectFS k with _ | d
    · simp [Plan.empty]
    · by_cases he : d = l.sha256 <;> simp [he, Plan.empty]

/-- An `updateStep` iteration never touches the `template_removed`
list. -/
theorem Planner.updateStep_template_removed (hash : String → String) (projectFS : FS)
    (template_meta local_meta : Meta) (force : Bool) (k : String) :
    (Planner.updateStep hash projectFS template_meta local_meta force Plan.empty k).template_removed
      = [] := by
  unfold Planner.updateStep
  rcases htm : template_meta.lookup k with _ | t
  · simp [Plan.empty]
  · cases force
    · rcases hlm : local_meta.lookup k with _ | l
      · rcases hex : (projectFS.lookup k).isSome <;> simp [hex, Plan.empty]
      · by_cases hc : t.last_commit = l.last_commit
        · simp [hc, Plan.empty]
        · by_cases hh : Hasher.sha256_file hash projectFS k = some t.sha256
              ∨ Hasher.sha256_file hash projectFS k = none
          · simp only [if_neg hc]
            rw [if_pos hh]
            simp [Plan.empty]
          · simp only [if_neg hc]
            rw [if_neg hh]
            simp [Plan.empty]
    · simp [Plan.empty]

-- ==================================================================
-- Claim C1
-- ==================================================================

/-- C1: for a key present in both manifests with differing
`last_commit` values and `force` not set, `Planner.build` computes the
current on-disk digest and classifies the key `prompt_user` whenever
that digest differs from the `sha256` of the template entry and the file
exists — in particular a file whose on-disk hash still equals the old
local `sha256` (unedited) but not the new template `sha256` is
classified `prompt_user` and never `skip`. -/
theorem C1_commit_mismatch_divergent_prompts
    (hash : String → String) (template_meta local_meta : Meta) (projectFS : FS)
    (key : String) (t l : FileMeta) (d : String)
    (hT : template_meta.lookup key = some t)
    (hL : local_meta.lookup key = some l)
    (hc : t.last_commit ≠ l.last_commit)
    (hfs : projectFS.lookup key = some d)
    (hne : hash d ≠ t.sha256) :
    (key, t.template_path)
        ∈ (Planner.build hash template_meta local_meta projectFS false).prompt_user
      ∧ ∀ tp, (key, tp)
        ∉ (Planner.build hash template_meta local_meta projectFS false).skip := by
  constructor
  · rw [Planner.mem_field_build Plan.prompt_user (fun p q => rfl) rfl]
    refine Or.inl ⟨key, (mem_keys_in_template _ _ _).mpr (mem_fst_of_lookup_some hT), ?_⟩
    rw [Planner.updateStep_empty_divergent hash projectFS template_meta local_meta
      key t l d hT hL hc hfs hne]
    simp
  · intro tp h
    rw [Planner.mem_field_build Plan.skip (fun p q => rfl) rfl] at h
    rcases h with ⟨k, _, hv⟩ | ⟨k, _, hv⟩
    · have hk : key = k :=
        Planner.updateStep_fst hash projectFS template_meta local_meta false k
          (key, tp) (Or.inl hv)
      subst hk
      rw [Planner.updateStep_empty_divergent hash projectFS template_meta local_meta
        key t l d hT hL hc hfs hne] at hv
      simp at hv
    · rw [Planner.removalStep_skip] at hv
      simp at hv

/-- Witness for C1 at the scenario given in the spec: on-disk hash equals the
old local digest but not the new template digest. -/
theorem C1_witness :
    ("a.txt", "tpl/a.txt")
        ∈ (Planner.build (fun s => "h:" ++ s)
            [("a.txt", ⟨"c2", "H2", "tpl/a.txt"⟩)]
            [("a.txt", ⟨"c1", "h:body", "tpl/a.txt"⟩)]
            [("a.txt", "body")] false).prompt_user
      ∧ ("a.txt", "tpl/a.txt")
        ∉ (Planner.build (fun s => "h:" ++ s)
            [("a.txt", ⟨"c2", "H2", "tpl/a.txt"⟩)]
            [("a.txt", ⟨"c1", "h:body", "tpl/a.txt"⟩)]
            [("a.txt", "body")] false).skip :=
  ⟨(C1_commit_mismatch_divergent_prompts (fun s => "h:" ++ s)
      [("a.txt", ⟨"c2", "H2", "tpl/a.txt"⟩)]
      [("a.txt", ⟨"c1", "h:body", "tpl/a.txt"⟩)]
      [("a.txt", "body")] "a.txt" ⟨"c2", "H2", "tpl/a.txt"⟩ ⟨"c1", "h:body", "tpl/a.txt"⟩
      "body" (by decide) (by decide) (by decide) (by decide) (by decide)).1,
   (C1_commit_mismatch_divergent_prompts (fun s => "h:" ++ s)
      [("a.txt", ⟨"c2", "H2", "tpl/a.txt"⟩)]
      [("a.txt", ⟨"c1", "h:body", "tpl/a.txt"⟩)]
      [("a.txt", "body")] "a.txt" ⟨"c2", "H2", "tpl/a.txt"⟩ ⟨"c1", "h:body", "tpl/a.txt"⟩
      "body" (by decide) (by decide) (by decide) (by decide) (by decide)).2 "tpl/a.txt"⟩

-- ==================================================================
-- Claim C2
-- ==================================================================

/-- C2: a key present in the template manifest but absent from the
local manifest (and `force` not set) is marked `template_new`, then
classified `prompt_user` when a file already exists at that path and
`auto_update` otherwise; it is never `auto_update` when the on-disk
file exists. -/
theorem C2_template_new_never_overwrites
    (hash : String → String) (template_meta local_meta : Meta) (projectFS : FS)
    (key : String) (t : FileMeta)
    (hT : template_meta.lookup key = some t)
    (hL : local_meta.lookup key = none) :
    (key, t.template_path)
        ∈ (Planner.build hash template_meta local_meta projectFS false).template_new
      ∧ ((projectFS.lookup key).isSome = true →
          (key, t.template_path)
              ∈ (Planner.build hash template_meta local_meta projectFS false).prompt_user
            ∧ ∀ tp, (key, tp)
              ∉ (Planner.build hash template_meta local_meta projectFS false).auto_update)
      ∧ (projectFS.lookup key = none →
          (key, t.template_path)
            ∈ (Planner.build hash template_meta local_meta projectFS false).auto_update) := by
  have hmemT : key ∈ (ManifestStore.collect_keys template_meta local_meta).1 :=
    (mem_keys_in_template _ _ _).mpr (mem_fst_of_lookup_some hT)
  refine ⟨?_, fun hex => ⟨?_, ?_⟩, fun hmiss => ?_⟩
  · rw [Planner.mem_field_build Plan.template_new (fun p q => rfl) rfl]
    refine Or.inl ⟨key, hmemT, ?_⟩
    rcases hcase : projectFS.lookup key with _ | d
    · rw [Planner.updateStep_empty_new_missing hash projectFS template_meta local_meta
        key t hT hL hcase]
      simp
    · rw [Planner.updateStep_empty_new_exists hash projectFS template_meta local_meta
        key t hT hL (by simp [hcase])]
      simp
  · rw [Planner.mem_field_build Plan.prompt_user (fun p q => rfl) rfl]
    refine Or.inl ⟨key, hmemT, ?_⟩
    rw [Planner.updateStep_empty_new_exists hash projectFS template_meta local_meta
      key t hT hL ?_]
    · simp
    · exact ‹(projectFS.lookup key).isSome = true›
  · intro tp h
    rw [Planner.mem_field_build Plan.auto_update (fun p q => rfl) rfl] at h
    rcases h with ⟨k, _, hv⟩ | ⟨k, hk, hv⟩
    · have hkk : key = k :=
        Planner.updateStep_fst hash projectFS template_meta local_meta false k
          (key, tp) (Or.inr (Or.inl hv))
      subst hkk
      rw [Planner.updateStep_empty_new_exists hash projectFS template_meta local_meta
        key t hT hL ‹(projectFS.lookup key).isSome = true›] at hv
      simp at hv
    · have hkk : key = k :=
        Planner.removalStep_fst hash projectFS local_meta k (key, tp)
          (Or.inr (Or.inl hv))
      subst hkk
      rw [mem_removed_in_template] at hk
      exact hk.2 (mem_fst_of_lookup_some hT)
  · rw [Planner.mem_field_build Plan.auto_update (fun p q => rfl) rfl]
    refine Or.inl ⟨key, hmemT, ?_⟩
    rw [Planner.updateStep_empty_new_missing hash projectFS template_meta local_meta
      key t hT hL hmiss]
    simp

/-- Witness for C2: an untracked pre-existing file prompts (and is not
auto-updated); the same key with no on-disk file auto-updates. -/
theorem C2_witness :
    (("n.txt", "tpl/n.txt")
        ∈ (Planner.build (fun s => "h:" ++ s)
            [("n.txt", ⟨"c1", "H1", "tpl/n.txt"⟩)] []
            [("n.txt", "local work")] false).prompt_user
      ∧ ("n.txt", "tpl/n.txt")
        ∉ (Planner.build (fun s => "h:" ++ s)
            [("n.txt", ⟨"c1", "H1", "tpl/n.txt"⟩)] []
            [("n.txt", "local work")] false).auto_update)
      ∧ ("n.txt", "tpl/n.txt")
        ∈ (Planner.build (fun s => "h:" ++ s)
            [("n.txt", ⟨"c1", "H1", "tpl/n.txt"⟩)] [] [] false).auto_update := by
  refine ⟨⟨?_, ?_⟩, ?_⟩
  · exact ((C2_template_new_never_overwrites (fun s => "h:" ++ s)
      [("n.txt", ⟨"c1", "H1", "tpl/n.txt"⟩)] [] [("n.txt", "local work")]
      "n.txt" ⟨"c1", "H1", "tpl/n.txt"⟩ (by decide) (by decide)).2.1 (by decide)).1
  · exact ((C2_template_new_never_overwrites (fun s => "h:" ++ s)
      [("n.txt", ⟨"c1", "H1", "tpl/n.txt"⟩)] [] [("n.txt", "local work")]
      "n.txt" ⟨"c1", "H1", "tpl/n.txt"⟩ (by decide) (by decide)).2.1 (by decide)).2 "tpl/n.txt"
  · exact (C2_template_new_never_overwrites (fun s => "h:" ++ s)
      [("n.txt", ⟨"c1", "H1", "tpl/n.txt"⟩)] [] []
      "n.txt" ⟨"c1", "H1", "tpl/n.txt"⟩ (by decide) (by decide)).2.2 (by decide)

-- ==================================================================
-- Claim C3
-- ==================================================================

/-- C3: for a key present in both manifests whose template and local
`last_commit` agree (and `force` not set), `Planner.build` classifies
the key `skip` for every possible state of the project directory — in
particular even when the on-disk digest has diverged from the last
recorded digest, which formalizes that the exact-commit match
short-circuits any hash comparison of the on-disk file. -/
theorem C3_same_commit_skips
    (hash : String → String) (template_meta local_meta : Meta)
    (key : String) (t l : FileMeta)
    (hT : template_meta.lookup key = some t)
    (hL : local_meta.lookup key = some l)
    (hc : t.last_commit = l.last_commit) :
    ∀ projectFS : FS,
      (key, t.template_path)
        ∈ (Planner.build hash template_meta local_meta projectFS false).skip := by
  intro projectFS
  rw [Planner.mem_field_build Plan.skip (fun p q => rfl) rfl]
  refine Or.inl ⟨key, (mem_keys_in_template _ _ _).mpr (mem_fst_of_lookup_some hT), ?_⟩
  rw [Planner.updateStep_empty_same_commit hash projectFS template_meta local_meta
    key t l hT hL hc]
  simp

/-- Witness for C3: the commit tokens agree while the on-disk content
hashes to something different from every recorded digest; the key is
still skipped. -/
theorem C3_witness :
    ("a.txt", "tpl/a.txt")
      ∈ (Planner.build (fun s => "h:" ++ s)
          [("a.txt", ⟨"c1", "h:orig", "tpl/a.txt"⟩)]
          [("a.txt", ⟨"c1", "h:orig", "tpl/a.txt"⟩)]
          [("a.txt", "heavily edited")] false).skip :=
  C3_same_commit_skips (fun s => "h:" ++ s)
    [("a.txt", ⟨"c1", "h:orig", "tpl/a.txt"⟩)]
    [("a.txt", ⟨"c1", "h:orig", "tpl/a.txt"⟩)]
    "a.txt" ⟨"c1", "h:orig", "tpl/a.txt"⟩ ⟨"c1", "h:orig", "tpl/a.txt"⟩
    (by decide) (by decide) (by decide) [("a.txt", "heavily edited")]

-- ==================================================================
-- Claim C4
-- ==================================================================

/-- C4: a key present in the local manifest but absent from the
template manifest is appended to `template_removed` and classified
`auto_update` when the on-disk file is absent or its current digest
equals the locally recorded `sha256`, and `prompt_user` when the
current digest differs. -/
theorem C4_removed_key_classification
    (hash : String → String) (template_meta local_meta : Meta) (projectFS : FS)
    (force : Bool) (key : String) (l : FileMeta)
    (hT : template_meta.lookup key = none)
    (hL : local_meta.lookup key = some l) :
    (key, l.template_path)
        ∈ (Planner.build hash template_meta local_meta projectFS force).template_removed
      ∧ (projectFS.lookup key = none →
          (key, l.template_path)
            ∈ (Planner.build hash template_meta local_meta projectFS force).auto_update)
      ∧ (∀ d, projectFS.lookup key = some d → hash d = l.sha256 →
          (key, l.template_path)
            ∈ (Planner.build hash template_meta local_meta projectFS force).auto_update)
      ∧ (∀ d, projectFS.lookup key = some d → hash d ≠ l.sha256 →
          (key, l.template_path)
            ∈ (Planner.build hash template_meta local_meta projectFS force).prompt_user) := by
  have hmemR : key ∈ (ManifestStore.collect_keys template_meta local_meta).2 :=
    (mem_removed_in_template _ _ _).mpr
      ⟨mem_fst_of_lookup_some hL, (lookup_eq_none_iff _ _).mp hT⟩
  refine ⟨?_, fun hmiss => ?_, fun d hd he => ?_, fun d hd he => ?_⟩
  · rw [Planner.mem_field_build Plan.template_removed (fun p q => rfl) rfl]
    refine Or.inr ⟨key, hmemR, ?_⟩
    rcases hcase : projectFS.lookup key with _ | d
    · rw [Planner.removalStep_empty_missing hash projectFS local_meta key l hL hcase]
      simp
    · by_cases he : hash d = l.sha256
      · rw [Planner.removalStep_empty_unchanged hash projectFS local_meta key l d hL hcase he]
        simp
      · rw [Planner.removalStep_empty_modified hash projectFS local_meta key l d hL hcase he]
        simp
  · rw [Planner.mem_field_build Plan.auto_update (fun p q => rfl) rfl]
    refine Or.inr ⟨key, hmemR, ?_⟩
    rw [Planner.removalStep_empty_missing hash projectFS local_meta key l hL hmiss]
    simp
  · rw [Planner.mem_field_build Plan.auto_update (fun p q => rfl) rfl]
    refine Or.inr ⟨key, hmemR, ?_⟩
    rw [Planner.removalStep_empty_unchanged hash projectFS local_meta key l d hL hd he]
    simp
  · rw [Planner.mem_field_build Plan.prompt_user (fun p q => rfl) rfl]
    refine Or.inr ⟨key, hmemR, ?_⟩
    rw [Planner.removalStep_empty_modified hash projectFS local_meta key l d hL hd he]
    simp

/-- Witness for C4 covering the three removal outcomes: file already
gone, file unchanged from the recorded digest, file modified. -/
theorem C4_witness :
    ("r.txt", "tpl/r.txt")
        ∈ (Planner.build (fun s => "h:" ++ s) []
            [("r.txt", ⟨"c1", "h:orig", "tpl/r.txt"⟩)] [] false).auto_update
      ∧ ("r.txt", "tpl/r.txt")
        ∈ (Planner.build (fun s => "h:" ++ s) []
            [("r.txt", ⟨"c1", "h:orig", "tpl/r.txt"⟩)]
            [("r.txt", "orig")] false).auto_update
      ∧ ("r.txt", "tpl/r.txt")
        ∈ (Planner.build (fun s => "h:" ++ s) []
            [("r.txt", ⟨"c1", "h:orig", "tpl/r.txt"⟩)]
            [("r.txt", "edited")] false).prompt_user
      ∧ ("r.txt", "tpl/r.txt")
        ∈ (Planner.build (fun s => "h:" ++ s) []
            [("r.txt", ⟨"c1", "h:orig", "tpl/r.txt"⟩)]
            [("r.txt", "edited")] false).template_removed := by
  refine ⟨?_, ?_, ?_, ?_⟩
  · exact (C4_removed_key_classification (fun s => "h:" ++ s) []
      [("r.txt", ⟨"c1", "h:orig", "tpl/r.txt"⟩)] [] false
      "r.txt" ⟨"c1", "h:orig", "tpl/r.txt"⟩ (by decide) (by decide)).2.1 (by decide)
  · exact (C4_removed_key_classification (fun s => "h:" ++ s) []
      [("r.txt", ⟨"c1", "h:orig", "tpl/r.txt"⟩)] [("r.txt", "orig")] false
      "r.txt" ⟨"c1", "h:orig", "tpl/r.txt"⟩ (by decide) (by decide)).2.2.1 "orig"
      (by decide) (by decide)
  · exact (C4_removed_key_classification (fun s => "h:" ++ s) []
      [("r.txt", ⟨"c1", "h:orig", "tpl/r.txt"⟩)] [("r.txt", "edited")] false
      "r.txt" ⟨"c1", "h:orig", "tpl/r.txt"⟩ (by decide) (by decide)).2.2.2 "edited"
      (by decide) (by decide)
  · exact (C4_removed_key_classification (fun s => "h:" ++ s) []
      [("r.txt", ⟨"c1", "h:orig", "tpl/r.txt"⟩)] [("r.txt", "edited")] false
      "r.txt" ⟨"c1", "h:orig", "tpl/r.txt"⟩ (by decide) (by decide)).1

-- ==================================================================
-- Claim C5
-- ==================================================================

/-- When the auto-update and prompt lists are empty, `Planner.apply`
performs no filesystem mutation and returns the project directory
unchanged. -/
theorem Planner.apply_ok_of_nothing_to_do (plan : Plan) (templateFS projectFS : FS)
    (force : Bool) (prompt_fn : String → String)
    (h1 : plan.auto_update = []) (h2 : plan.prompt_user = []) :
    Planner.apply plan templateFS projectFS force prompt_fn = Except.ok projectFS := by
  unfold Planner.apply
  simp [h1, h2, Planner.applyList]

/-- C5: plan application is idempotent — when the local manifest
equals the template manifest (the state after a successful apply
followed by the wholesale manifest copy) and `force` is not set, a
second `Planner.build` classifies every key `skip` with the four
other lists empty, and the subsequent `Planner.apply` leaves the
project directory unchanged. -/
theorem C5_second_run_is_noop
    (hash : String → String) (meta : Meta) (projectFS : FS) :
    (∀ k ∈ meta.map Prod.fst, ∃ tp,
        (k, tp) ∈ (Planner.build hash meta meta projectFS false).skip)
      ∧ (Planner.build hash meta meta projectFS false).auto_update = []
      ∧ (Planner.build hash meta meta projectFS false).prompt_user = []
      ∧ (Planner.build hash meta meta projectFS false).template_new = []
      ∧ (Planner.build hash meta meta projectFS false).template_removed = []
      ∧ ∀ (templateFS : FS) (prompt_fn : String → String),
          Planner.apply (Planner.build hash meta meta projectFS false)
            templateFS projectFS false prompt_fn = Except.ok projectFS := by
  have hkey2 : ∀ k, k ∉ (ManifestStore.collect_keys meta meta).2 := by
    intro k hk
    rw [mem_removed_in_template] at hk
    exact hk.2 hk.1
  have hstep : ∀ k ∈ (ManifestStore.collect_keys meta meta).1, ∃ tp,
      Planner.updateStep hash projectFS meta meta false Plan.empty k
        = { skip := [(k, tp)] } := by
    intro k hk
    obtain ⟨t, ht⟩ := exists_lookup_some_of_mem_fst ((mem_keys_in_template _ _ _).mp hk)
    exact ⟨t.template_path,
      Planner.updateStep_empty_same_commit hash projectFS meta meta k t t ht ht rfl⟩
  have hempty : ∀ g : Plan → List (String × String),
      (∀ p q : Plan, g (p.append q) = g p ++ g q) → g Plan.empty = [] →
      (∀ k tp, g ({ skip := [(k, tp)] } : Plan) = []) →
      g (Planner.build hash meta meta projectFS false) = [] := by
    intro g hg hge hgskip
    rw [List.eq_nil_iff_forall_not_mem]
    intro v hv
    rw [Planner.mem_field_build g hg hge] at hv
    rcases hv with ⟨k, hk, hv⟩ | ⟨k, hk, _⟩
    · obtain ⟨tp, hstepk⟩ := hstep k hk
      rw [hstepk, hgskip] at hv
      simp at hv
    · exact hkey2 k hk
  refine ⟨?_, ?_, ?_, ?_, ?_, ?_⟩
  · intro k hk
    have hk1 : k ∈ (ManifestStore.collect_keys meta meta).1 :=
      (mem_keys_in_template _ _ _).mpr hk
    obtain ⟨tp, hstepk⟩ := hstep k hk1
    refine ⟨tp, ?_⟩
    rw [Planner.mem_field_build Plan.skip (fun p q => rfl) rfl]
    exact Or.inl ⟨k, hk1, by rw [hstepk]; simp⟩
  · exact hempty Plan.auto_update (fun p q => rfl) rfl (fun k tp => rfl)
  · exact hempty Plan.prompt_user (fun p q => rfl) rfl (fun k tp => rfl)
  · exact hempty Plan.template_new (fun p q => rfl) rfl (fun k tp => rfl)
  · exact hempty Plan.template_removed (fun p q => rfl) rfl (fun k tp => rfl)
  · intro templateFS prompt_fn
    exact Planner.apply_ok_of_nothing_to_do _ templateFS projectFS false prompt_fn
      (hempty Plan.auto_update (fun p q => rfl) rfl (fun k tp => rfl))
      (hempty Plan.prompt_user (fun p q => rfl) rfl (fun k tp => rfl))

/-- Witness for C5 on a concrete synced project: every key skips and
apply returns the directory unchanged. -/
theorem C5_witness :
    (∃ tp, ("a.txt", tp)
        ∈ (Planner.build (fun s => "h:" ++ s)
            [("a.txt", ⟨"h:x", "h:x", "a.txt"⟩)]
            [("a.txt", ⟨"h:x", "h:x", "a.txt"⟩)]
            [("a.txt", "x")] false).skip)
      ∧ Planner.apply
          (Planner.build (fun s => "h:" ++ s)
            [("a.txt", ⟨"h:x", "h:x", "a.txt"⟩)]
            [("a.txt", ⟨"h:x", "h:x", "a.txt"⟩)]
            [("a.txt", "x")] false)
          [("a.txt", "x")] [("a.txt", "x")] false (fun _ => "N")
        = Except.ok [("a.txt", "x")] :=
  ⟨(C5_second_run_is_noop (fun s => "h:" ++ s)
      [("a.txt", ⟨"h:x", "h:x", "a.txt"⟩)] [("a.txt", "x")]).1 "a.txt" (by decide),
   (C5_second_run_is_noop (fun s => "h:" ++ s)
      [("a.txt", ⟨"h:x", "h:x", "a.txt"⟩)] [("a.txt", "x")]).2.2.2.2.2
      [("a.txt", "x")] (fun _ => "N")⟩

-- ==================================================================
-- Claim C8
-- ==================================================================

/-- Congruence for left folds whose step functions agree on the folded
list. -/
theorem foldl_congr_mem {α β : Type} (f g : β → α → β) :
    ∀ l : List α, (∀ a ∈ l, ∀ b, f b a = g b a) → ∀ b, l.foldl f b = l.foldl g b := by
  intro l
  induction l with
  | nil => intro _ b; rfl
  | cons a l ih =>
    intro h b
    rw [List.foldl_cons, List.foldl_cons, h a (List.mem_cons_self a l),
      ih (fun x hx => h x (List.mem_cons_of_mem a hx))]

/-- On a key under neither the `core/` nor the `ui/` path prefix, the
tcv_helper update step agrees with the standalone planner. -/
theorem TcvPlanner.updateStep_eq_of_not_core_ui (hash : String → String) (projectFS : FS)
    (template_meta local_meta : Meta) (force : Bool) (k : String)
    (hcore : strStartsWithB k "core/" = false) (hui : strStartsWithB k "ui/" = false) :
    ∀ p, TcvPlanner.updateStep hash projectFS template_meta local_meta force p k
      = Planner.updateStep hash projectFS template_meta local_meta force p k := by
  intro p
  unfold TcvPlanner.updateStep Planner.updateStep
  rcases htm : template_meta.lookup k with _ | t
  · rfl
  · cases force
    · rcases hlm : local_meta.lookup k with _ | l
      · rfl
      · by_cases hc : t.last_commit = l.last_commit
        · simp [hc]
        · by_cases hh : Hasher.sha256_file hash projectFS k = some t.sha256
              ∨ Hasher.sha256_file hash projectFS k = none
          · simp [hc, hh]
          · simp [hc, hh, hcore, hui]
    · rfl

/-- C8: the standalone `Planner.build` and the tcv_helper variant
produce identical plans whenever no template-manifest key starts with
`core/` or `ui/`; on a divergent key under one of those prefixes the
tcv_helper variant classifies the key `auto_update` while the
standalone planner classifies it `prompt_user`. -/
theorem C8_variant_agreement_and_divergence :
    (∀ (hash : String → String) (template_meta local_meta : Meta) (projectFS : FS)
        (force : Bool),
        (∀ k ∈ template_meta.map Prod.fst,
            strStartsWithB k "core/" = false ∧ strStartsWithB k "ui/" = false) →
        TcvPlanner.build hash template_meta local_meta projectFS force
          = Planner.build hash template_meta local_meta projectFS force)
      ∧ (∀ (hash : String → String) (template_meta local_meta : Meta) (projectFS : FS)
          (key : String) (t l : FileMeta) (d : String),
          template_meta.lookup key = some t →
          local_meta.lookup key = some l →
          t.last_commit ≠ l.last_commit →
          projectFS.lookup key = some d →
          hash d ≠ t.sha256 →
          (strStartsWithB key "core/" || strStartsWithB key "ui/") = true →
          (key, t.template_path)
              ∈ (TcvPlanner.build hash template_meta local_meta projectFS false).auto_update
            ∧ (key, t.template_path)
              ∈ (Planner.build hash template_meta local_meta projectFS false).prompt_user) := by
  constructor
  · intro hash template_meta local_meta projectFS force hpre
    unfold TcvPlanner.build Planner.build
    have hfold :
        (ManifestStore.collect_keys template_meta local_meta).1.foldl
            (TcvPlanner.updateStep hash projectFS template_meta local_meta force) Plan.empty
          = (ManifestStore.collect_keys template_meta local_meta).1.foldl
            (Planner.updateStep hash projectFS template_meta local_meta force) Plan.empty := by
      apply foldl_congr_mem
      intro k hk p
      have hk1 := (mem_keys_in_template template_meta local_meta k).mp hk
      exact TcvPlanner.updateStep_eq_of_not_core_ui hash projectFS template_meta local_meta
        force k (hpre k hk1).1 (hpre k hk1).2 p
    simp only [hfold]
  · intro hash template_meta local_meta projectFS key t l d hT hL hc hfs hne hpre
    have hmemT : key ∈ (ManifestStore.collect_keys template_meta local_meta).1 :=
      (mem_keys_in_template _ _ _).mpr (mem_fst_of_lookup_some hT)
    constructor
    · rw [TcvPlanner.tcv_mem_field_build Plan.auto_update (fun p q => rfl) rfl]
      refine Or.inl ⟨key, hmemT, ?_⟩
      rw [TcvPlanner.updateStep_empty_divergent_pre hash projectFS template_meta local_meta
        key t l d hT hL hc hfs hne hpre]
      simp
    · rw [Planner.mem_field_build Plan.prompt_user (fun p q => rfl) rfl]
      refine Or.inl ⟨key, hmemT, ?_⟩
      rw [Planner.updateStep_empty_divergent hash projectFS template_meta local_meta
        key t l d hT hL hc hfs hne]
      simp

/-- Witness for C8: identical plans on a prefix-free input, and the
two classifications of a divergent `core/` file. -/
theorem C8_witness :
    TcvPlanner.build (fun s => "h:" ++ s)
        [("app.py", ⟨"c2", "H2", "app.py"⟩)]
        [("app.py", ⟨"c1", "H1", "app.py"⟩)]
        [("app.py", "body")] false
      = Planner.build (fun s => "h:" ++ s)
        [("app.py", ⟨"c2", "H2", "app.py"⟩)]
        [("app.py", ⟨"c1", "H1", "app.py"⟩)]
        [("app.py", "body")] false
    ∧ ("core/x.py", "core/x.py")
        ∈ (TcvPlanner.build (fun s => "h:" ++ s)
            [("core/x.py", ⟨"c2", "H2", "core/x.py"⟩)]
            [("core/x.py", ⟨"c1", "H1", "core/x.py"⟩)]
            [("core/x.py", "body")] false).auto_update
    ∧ ("core/x.py", "core/x.py")
        ∈ (Planner.build (fun s => "h:" ++ s)
            [("core/x.py", ⟨"c2", "H2", "core/x.py"⟩)]
            [("core/x.py", ⟨"c1", "H1", "core/x.py"⟩)]
            [("core/x.py", "body")] false).prompt_user := by
  refine ⟨?_, ?_, ?_⟩
  · exact C8_variant_agreement_and_divergence.1 (fun s => "h:" ++ s)
      [("app.py", ⟨"c2", "H2", "app.py"⟩)]
      [("app.py", ⟨"c1", "H1", "app.py"⟩)]
      [("app.py", "body")] false (by decide)
  · exact (C8_variant_agreement_and_divergence.2 (fun s => "h:" ++ s)
      [("core/x.py", ⟨"c2", "H2", "core/x.py"⟩)]
      [("core/x.py", ⟨"c1", "H1", "core/x.py"⟩)]
      [("core/x.py", "body")] "core/x.py" ⟨"c2", "H2", "core/x.py"⟩
      ⟨"c1", "H1", "core/x.py"⟩ "body"
      (by decide) (by decide) (by decide) (by decide) (by decide) (by decide)).1
  · exact (C8_variant_agreement_and_divergence.2 (fun s => "h:" ++ s)
      [("core/x.py", ⟨"c2", "H2", "core/x.py"⟩)]
      [("core/x.py", ⟨"c1", "H1", "core/x.py"⟩)]
      [("core/x.py", "body")] "core/x.py" ⟨"c2", "H2", "core/x.py"⟩
      ⟨"c1", "H1", "core/x.py"⟩ "body"
      (by decide) (by decide) (by decide) (by decide) (by decide) (by decide)).2

-- ==================================================================
-- Claim C9
-- ==================================================================

/-- C9: the cache staleness check is fail-open for a missing cache
directory (always stale), a failed remote check, and an unparsable
remote timestamp (both fresh without raising), and a parsed
offset-aware remote timestamp is stale exactly when it is strictly
later than the modification time of the cache directory — but a
remote timestamp that parses to an offset-naive datetime is compared
against the offset-aware cache mtime outside the `try`/`except` and
raises an uncaught `TypeError`, reporting neither fresh nor stale.
The last conjunct evaluates the code on that failing input class and
contradicts the never-raises part of the claim, which matches the
stated intent of the source (fail open on any remote failure): the
uncaught comparison is the slip. -/
theorem C9_cache_staleness_fail_open_raises_on_naive :
    (∀ (remoteDate : Option String) (parseIso : String → Option PyDatetime)
        (cacheMtime : Int),
        cache_is_stale false remoteDate parseIso cacheMtime = Except.ok true)
      ∧ (∀ (parseIso : String → Option PyDatetime) (cacheMtime : Int),
          cache_is_stale true none parseIso cacheMtime = Except.ok false)
      ∧ (∀ (d : String) (parseIso : String → Option PyDatetime) (cacheMtime : Int),
          parseIso (d.replace "Z" "+00:00") = none →
          cache_is_stale true (some d) parseIso cacheMtime = Except.ok false)
      ∧ (∀ (d : String) (parseIso : String → Option PyDatetime)
          (cacheMtime remote_dt : Int),
          parseIso (d.replace "Z" "+00:00") = some ⟨true, remote_dt⟩ →
          (cache_is_stale true (some d) parseIso cacheMtime = Except.ok true
            ↔ remote_dt > cacheMtime))
      ∧ (∀ (d : String) (parseIso : String → Option PyDatetime)
          (cacheMtime remote_dt : Int),
          parseIso (d.replace "Z" "+00:00") = some ⟨false, remote_dt⟩ →
          ∀ b : Bool, cache_is_stale true (some d) parseIso cacheMtime ≠ Except.ok b) := by
  refine ⟨fun remoteDate parseIso cacheMtime => rfl,
    fun parseIso cacheMtime => rfl,
    fun d parseIso cacheMtime hp => ?_,
    fun d parseIso cacheMtime remote_dt hp => ?_,
    fun d parseIso cacheMtime remote_dt hp b => ?_⟩
  · unfold cache_is_stale
    simp [hp]
  · unfold cache_is_stale
    simp [hp]
  · unfold cache_is_stale
    simp [hp]

/-- Witness for C9 at concrete parse outcomes: missing cache is stale;
remote failure and parse failure are fresh; a later offset-aware
remote commit is stale; an offset-naive remote timestamp (no `Z`, no
offset, still parsable) makes the check raise instead of reporting a
boolean. -/
theorem C9_witness :
    cache_is_stale false none (fun _ => none) 0 = Except.ok true
      ∧ cache_is_stale true none (fun _ => none) 0 = Except.ok false
      ∧ cache_is_stale true (some "not-a-date") (fun _ => none) 0 = Except.ok false
      ∧ cache_is_stale true (some "2024-01-02T00:00:00Z")
          (fun _ => some ⟨true, 5⟩) 3 = Except.ok true
      ∧ cache_is_stale true (some "2024-01-02T00:00:00")
          (fun _ => some ⟨false, 5⟩) 3 ≠ Except.ok false :=
  ⟨C9_cache_staleness_fail_open_raises_on_naive.1 none (fun _ => none) 0,
   C9_cache_staleness_fail_open_raises_on_naive.2.1 (fun _ => none) 0,
   C9_cache_staleness_fail_open_raises_on_naive.2.2.1 "not-a-date" (fun _ => none) 0 rfl,
   (C9_cache_staleness_fail_open_raises_on_naive.2.2.2.1 "2024-01-02T00:00:00Z"
      (fun _ => some ⟨true, 5⟩) 3 5 rfl).mpr (by decide),
   C9_cache_staleness_fail_open_raises_on_naive.2.2.2.2 "2024-01-02T00:00:00"
      (fun _ => some ⟨false, 5⟩) 3 5 rfl false⟩

-- ==================================================================
-- Claim C10
-- ==================================================================

/-- A left fold whose step preserves the second component preserves
it globally. -/
theorem foldl_snd_eq {α β γ : Type} (f : β × γ → α → β × γ)
    (h : ∀ pw a, (f pw a).2 = pw.2) :
    ∀ (l : List α) (pw : β × γ), (l.foldl f pw).2 = pw.2 := by
  intro l
  induction l with
  | nil => intro pw; rfl
  | cons a l ih =>
    intro pw
    rw [List.foldl_cons, ih (f pw a), h pw a]

/-- A single state-threaded update step leaves the world untouched. -/
theorem Planner.updateStepM_world (hash : String → String)
    (template_meta local_meta : Meta) (force : Bool) (pw : Plan × World) (k : String) :
    (Planner.updateStepM hash template_meta local_meta force pw k).2 = pw.2 := by
  unfold Planner.updateStepM
  dsimp only
  split
  · rfl
  · split
    · rfl
    · split
      · split <;> rfl
      · split
        · rfl
        · split <;> rfl

/-- A single state-threaded tcv update step leaves the world
untouched. -/
theorem TcvPlanner.tcvUpdateStepM_world (hash : String → String)
    (template_meta local_meta : Meta) (force : Bool) (pw : Plan × World) (k : String) :
    (TcvPlanner.updateStepM hash template_meta local_meta force pw k).2 = pw.2 := by
  unfold TcvPlanner.updateStepM
  dsimp only
  split
  · rfl
  · split
    · rfl
    · split
      · split <;> rfl
      · split
        · rfl
        · split
          · rfl
          · split <;> rfl

/-- A single state-threaded removal step leaves the world untouched. -/
theorem Planner.removalStepM_world (hash : String → String) (local_meta : Meta)
    (pw : Plan × World) (k : String) :
    (Planner.removalStepM hash local_meta pw k).2 = pw.2 := by
  unfold Planner.removalStepM
  dsimp only
  split
  · rfl
  · split
    · rfl
    · split <;> rfl

/-- C10: `Planner.build` performs no filesystem mutation — in both the
standalone planner and the tcv_helper variant, threading the world
through every filesystem access `build` performs (the two manifest
loads, the per-key hashing and existence checks) returns the world
unchanged: the project directory and the template directory are
byte-for-byte what they were, and all mutation is confined to
`Planner.apply`. -/
theorem C10_build_is_read_only (hash : String → String) (force : Bool) (w : World) :
    (Planner.buildM hash force w).2 = w ∧ (TcvPlanner.buildM hash force w).2 = w := by
  constructor
  · unfold Planner.buildM
    rw [foldl_snd_eq _ (Planner.removalStepM_world hash _),
      foldl_snd_eq _ (Planner.updateStepM_world hash _ _ force)]
    rfl
  · unfold TcvPlanner.buildM
    rw [foldl_snd_eq _ (Planner.removalStepM_world hash _),
      foldl_snd_eq _ (TcvPlanner.tcvUpdateStepM_world hash _ _ force)]
    rfl

-- ==================================================================
-- Claim C6
-- ==================================================================

/-- The last value written by a scan of a template directory, seeded
with `acc`: entries satisfying `pred` overwrite the accumulator in
iteration order.  This is the observable effect of the merge loop on
one lookup key. -/
def lastWrittenFrom {β : Type} (pred : RelPath × String → Bool)
    (val : RelPath × String → β) : Option β → TDir → Option β
  | acc, [] => acc
  | acc, f :: rest => lastWrittenFrom pred val (if pred f then some (val f) else acc) rest

/-- A directory entry lands at merged path `rel`: it is not excluded
and its renamed relative path is `rel`. -/
def hitPred (app_builder : Bool) (rel : RelPath) (f : RelPath × String) : Bool :=
  !mergeExcluded app_builder f.1 && (renameGitignore f.1 == rel)

/-- A directory entry lands at merged manifest key `mkey`. -/
def metaPred (app_builder : Bool) (mkey : String) (f : RelPath × String) : Bool :=
  !mergeExcluded app_builder f.1 && (String.intercalate "/" (renameGitignore f.1) == mkey)

/-- The content the merge loop leaves at merged path `rel` after
copying one directory, ignoring whatever was there before. -/
def lastFileAt (app_builder : Bool) (rel : RelPath) (dir : TDir) : Option String :=
  lastWrittenFrom (hitPred app_builder rel) (fun f => f.2) none dir

/-- The manifest entry the merge loop leaves at key `mkey` after
copying one directory, ignoring whatever was there before. -/
def lastMetaAt (hash : String → String) (app_builder : Bool) (mkey : String)
    (dir : TDir) : Option FileMeta :=
  lastWrittenFrom (metaPred app_builder mkey)
    (fun f => ⟨hash f.2, hash f.2, String.intercalate "/" (renameGitignore f.1)⟩)
    none dir

theorem lastWrittenFrom_acc {β : Type} (pred : RelPath × String → Bool)
    (val : RelPath × String → β) :
    ∀ (dir : TDir) (acc : Option β),
      lastWrittenFrom pred val acc dir
        = match lastWrittenFrom pred val none dir with
          | some x => some x
          | none => acc := by
  intro dir
  induction dir with
  | nil => intro acc; rfl
  | cons f rest ih =>
    intro acc
    by_cases hp : pred f = true
    · rw [lastWrittenFrom, lastWrittenFrom, if_pos hp, if_pos hp, ih]
      rcases lastWrittenFrom pred val none rest with _ | x <;> rfl
    · rw [lastWrittenFrom, lastWrittenFrom, if_neg hp, if_neg hp, ih]

theorem mergeFile_files_lookup (hash : String → String) (app_builder : Bool)
    (st : MergedState) (f : RelPath × String) (rel : RelPath) :
    (mergeFile hash app_builder st f).files.lookup rel
      = if hitPred app_builder rel f then some f.2 else st.files.lookup rel := by
  rcases hx : mergeExcluded app_builder f.1
  · by_cases heq : renameGitignore f.1 = rel
    · simp only [mergeFile, hx, Bool.false_eq_true, if_false, relWrite, heq]
      rw [lookup_dictWrite_self]
      simp [hitPred, hx, heq]
    · simp only [mergeFile, hx, Bool.false_eq_true, if_false, relWrite]
      rw [lookup_dictWrite_other _ _ _ _ (fun h => heq h.symm)]
      simp [hitPred, hx, heq]
  · simp [mergeFile, hitPred, hx]

theorem mergeFile_manifest_lookup (hash : String → String) (app_builder : Bool)
    (st : MergedState) (f : RelPath × String) (mkey : String) :
    (mergeFile hash app_builder st f).manifest.lookup mkey
      = if metaPred app_builder mkey f then
          some ⟨hash f.2, hash f.2, String.intercalate "/" (renameGitignore f.1)⟩
        else st.manifest.lookup mkey := by
  rcases hx : mergeExcluded app_builder f.1
  · by_cases heq : String.intercalate "/" (renameGitignore f.1) = mkey
    · simp only [mergeFile, hx, Bool.false_eq_true, if_false, metaWrite, heq]
      rw [lookup_dictWrite_self]
      simp [metaPred, hx, heq]
    · simp only [mergeFile, hx, Bool.false_eq_true, if_false, metaWrite]
      rw [lookup_dictWrite_other _ _ _ _ (fun h => heq h.symm)]
      simp [metaPred, hx, heq]
  · simp [mergeFile, metaPred, hx]

theorem mergeDir_files_lookup (hash : String → String) (app_builder : Bool)
    (rel : RelPath) :
    ∀ (dir : TDir) (st : MergedState),
      (mergeDir hash app_builder st dir).files.lookup rel
        = lastWrittenFrom (hitPred app_builder rel) (fun f => f.2)
            (st.files.lookup rel) dir := by
  intro dir
  induction dir with
  | nil => intro st; rfl
  | cons f rest ih =>
    intro st
    rw [show mergeDir hash app_builder st (f :: rest)
        = mergeDir hash app_builder (mergeFile hash app_builder st f) rest from rfl,
      ih, lastWrittenFrom, mergeFile_files_lookup]

theorem mergeDir_manifest_lookup (hash : String → String) (app_builder : Bool)
    (mkey : String) :
    ∀ (dir : TDir) (st : MergedState),
      (mergeDir hash app_builder st dir).manifest.lookup mkey
        = lastWrittenFrom (metaPred app_builder mkey)
            (fun f => ⟨hash f.2, hash f.2, String.intercalate "/" (renameGitignore f.1)⟩)
            (st.manifest.lookup mkey) dir := by
  intro dir
  induction dir with
  | nil => intro st; rfl
  | cons f rest ih =>
    intro st
    rw [show mergeDir hash app_builder st (f :: rest)
        = mergeDir hash app_builder (mergeFile hash app_builder st f) rest from rfl,
      ih, lastWrittenFrom, mergeFile_manifest_lookup]

/-- C6: for an ancestor chain A → B → C in which all three templates
provide a file at the same non-excluded relative path — with C (the
leaf, resolved last) providing content `c` as the unique entry mapping
to that merged path — the merged template directory contains the
content of C at that path, and the merged manifest entry carries the
digest of the version of C for both hash fields, because every copy
re-hashes the just-written file. -/
theorem C6_merge_leaf_wins
    (hash : String → String) (cache : List (String × TDir)) (cfg : Cfg)
    (nameA nameB nameC : String) (dA dB dC : TDir)
    (app_builder : Bool) (rel : RelPath) (a b c : String)
    (hresolve : resolve_template_parents cfg nameC = [nameA, nameB, nameC])
    (hA : cache.lookup nameA = some dA)
    (hB : cache.lookup nameB = some dB)
    (hC : cache.lookup nameC = some dC)
    (hmemA : (rel, a) ∈ dA) (hmemB : (rel, b) ∈ dB)
    (hrelC : lastFileAt app_builder (renameGitignore rel) dC = some c)
    (hmetaC : lastMetaAt hash app_builder
        (String.intercalate "/" (renameGitignore rel)) dC
      = some ⟨hash c, hash c, String.intercalate "/" (renameGitignore rel)⟩) :
    (build_merged_template hash cache cfg nameC app_builder).files.lookup
        (renameGitignore rel) = some c
      ∧ (build_merged_template hash cache cfg nameC app_builder).manifest.lookup
        (String.intercalate "/" (renameGitignore rel))
        = some ⟨hash c, hash c, String.intercalate "/" (renameGitignore rel)⟩ := by
  unfold build_merged_template
  rw [hresolve]
  have hmp : mergeParents hash cache app_builder [nameA, nameB, nameC]
      = mergeDir hash app_builder
          (mergeDir hash app_builder
            (mergeDir hash app_builder ⟨[], []⟩ dA) dB) dC := by
    simp [mergeParents, hA, hB, hC]
  rw [hmp]
  constructor
  · rw [mergeDir_files_lookup, lastWrittenFrom_acc]
    have h1 : lastWrittenFrom (hitPred app_builder (renameGitignore rel))
        (fun f => f.2) none dC = some c := hrelC
    rw [h1]
  · rw [mergeDir_manifest_lookup, lastWrittenFrom_acc]
    have h2 : lastWrittenFrom
        (metaPred app_builder (String.intercalate "/" (renameGitignore rel)))
        (fun f => (⟨hash f.2, hash f.2,
          String.intercalate "/" (renameGitignore f.1)⟩ : FileMeta))
        none dC
      = some ⟨hash c, hash c, String.intercalate "/" (renameGitignore rel)⟩ := hmetaC
    rw [h2]

/-- Witness for C6 on a concrete three-level chain where all three
templates ship `app.py`: the merged directory and manifest carry the
content and digest of the leaf. -/
theorem C6_witness :
    (build_merged_template (fun s => "h:" ++ s)
        [("_app_common", [(["app.py"], "common")]),
         ("basic", [(["app.py"], "basic")]),
         ("egress", [(["app.py"], "egress")])]
        [("egress", ["basic"]), ("basic", ["_app_common"]), ("_app_common", [])]
        "egress" false).files.lookup ["app.py"] = some "egress"
      ∧ (build_merged_template (fun s => "h:" ++ s)
        [("_app_common", [(["app.py"], "common")]),
         ("basic", [(["app.py"], "basic")]),
         ("egress", [(["app.py"], "egress")])]
        [("egress", ["basic"]), ("basic", ["_app_common"]), ("_app_common", [])]
        "egress" false).manifest.lookup "app.py"
        = some ⟨"h:egress", "h:egress", "app.py"⟩ :=
  C6_merge_leaf_wins (fun s => "h:" ++ s)
    [("_app_common", [(["app.py"], "common")]),
     ("basic", [(["app.py"], "basic")]),
     ("egress", [(["app.py"], "egress")])]
    [("egress", ["basic"]), ("basic", ["_app_common"]), ("_app_common", [])]
    "_app_common" "basic" "egress"
    [(["app.py"], "common")] [(["app.py"], "basic")] [(["app.py"], "egress")]
    false ["app.py"] "common" "basic" "egress"
    (by decide) (by decide) (by decide) (by decide) (by decide) (by decide)
    (by decide) (by decide)

-- ==================================================================
-- Claim C7
-- ==================================================================

theorem foldl_seen_mono (f : RState → String → RState)
    (hf : ∀ s n, s.seen ⊆ (f s n).seen) :
    ∀ (l : List String) (s : RState), s.seen ⊆ (l.foldl f s).seen := by
  intro l
  induction l with
  | nil => intro s; exact List.Subset.refl _
  | cons n rest ih => intro s; exact (hf s n).trans (ih (f s n))

theorem resolveGo_seen_mono (cfg : Cfg) :
    ∀ (fuel : Nat) (name : String) (st : RState),
      st.seen ⊆ (resolveGo cfg fuel name st).seen := by
  intro fuel
  induction fuel with
  | zero => intro name st; exact List.Subset.refl _
  | succ fuel ih =>
    intro name st
    rw [resolveGo]
    by_cases h : name ∈ st.seen
    · rw [if_pos h]
      exact List.Subset.refl _
    · rw [if_neg h]
      rcases hc : cfg.lookup name with _ | parents
      · intro x hx
        exact List.mem_cons_of_mem _ hx
      · dsimp only
        intro x hx
        exact foldl_seen_mono _ (fun s n => ih n s) parents
          ⟨name :: st.seen, st.resolved⟩ (List.mem_cons_of_mem _ hx)

/-- The resolution invariant: the seen set only grows, and the
resolved list is extended by a duplicate-free block of names that were
unseen before and are seen after. -/
def ExtOK (s s2 : RState) : Prop :=
  s.seen ⊆ s2.seen
    ∧ ∃ L, s2.resolved = s.resolved ++ L ∧ L.Nodup
        ∧ (∀ x ∈ L, x ∉ s.seen) ∧ (∀ x ∈ L, x ∈ s2.seen)

theorem ExtOK_refl (s : RState) : ExtOK s s :=
  ⟨List.Subset.refl _, [], by simp, List.nodup_nil, by simp, by simp⟩

theorem ExtOK_trans {s1 s2 s3 : RState} (h12 : ExtOK s1 s2) (h23 : ExtOK s2 s3) :
    ExtOK s1 s3 := by
  obtain ⟨hs12, L1, hr1, hn1, hd1, hm1⟩ := h12
  obtain ⟨hs23, L2, hr2, hn2, hd2, hm2⟩ := h23
  refine ⟨hs12.trans hs23, L1 ++ L2, ?_, ?_, ?_, ?_⟩
  · rw [hr2, hr1, List.append_assoc]
  · rw [List.nodup_append]
    exact ⟨hn1, hn2, fun x hx1 hx2 => hd2 x hx2 (hm1 x hx1)⟩
  · intro x hx
    rcases List.mem_append.mp hx with hx | hx
    · exact hd1 x hx
    · exact fun hmem => hd2 x hx (hs12 hmem)
  · intro x hx
    rcases List.mem_append.mp hx with hx | hx
    · exact hs23 (hm1 x hx)
    · exact hm2 x hx

theorem foldl_ExtOK (f : RState → String → RState)
    (hf : ∀ s n, ExtOK s (f s n)) :
    ∀ (l : List String) (s : RState), ExtOK s (l.foldl f s) := by
  intro l
  induction l with
  | nil => intro s; exact ExtOK_refl s
  | cons n rest ih => intro s; exact ExtOK_trans (hf s n) (ih (f s n))

theorem resolveGo_ExtOK (cfg : Cfg) :
    ∀ (fuel : Nat) (name : String) (st : RState),
      ExtOK st (resolveGo cfg fuel name st) := by
  intro fuel
  induction fuel with
  | zero => intro name st; exact ExtOK_refl st
  | succ fuel ih =>
    intro name st
    rw [resolveGo]
    by_cases h : name ∈ st.seen
    · rw [if_pos h]; exact ExtOK_refl st
    · rw [if_neg h]
      rcases hc : cfg.lookup name with _ | parents
      · refine ⟨fun x hx => List.mem_cons_of_mem _ hx, [name], rfl, by simp, ?_, by simp⟩
        intro x hx
        rw [List.mem_singleton] at hx
        subst hx
        exact h
      · dsimp only
        obtain ⟨hs, L, hr, hn, hd, hm⟩ :=
          foldl_ExtOK _ (fun s n => ih n s) parents ⟨name :: st.seen, st.resolved⟩
        refine ⟨fun x hx => hs (List.mem_cons_of_mem _ hx), L ++ [name], ?_, ?_, ?_, ?_⟩
        · rw [hr, List.append_assoc]
        · rw [List.nodup_append]
          refine ⟨hn, by simp, fun x hx1 hx2 => ?_⟩
          rw [List.mem_singleton] at hx2
          subst hx2
          exact hd x hx1 (List.mem_cons_self _ _)
        · intro x hx
          rcases List.mem_append.mp hx with hx | hx
          · exact fun hmem => hd x hx (List.mem_cons_of_mem _ hmem)
          · rw [List.mem_singleton] at hx
            subst hx
            exact h
        · intro x hx
          rcases List.mem_append.mp hx with hx | hx
          · exact hm x hx
          · rw [List.mem_singleton] at hx
            subst hx
            exact hs (List.mem_cons_self _ _)

theorem length_filter_le_of_imp (p q : String → Bool)
    (h : ∀ a, p a = true → q a = true) :
    ∀ U : List String, (U.filter p).length ≤ (U.filter q).length := by
  intro U
  induction U with
  | nil => simp
  | cons u U ih =>
    by_cases hp : p u = true
    · rw [List.filter_cons, List.filter_cons, if_pos hp, if_pos (h u hp)]
      simpa using ih
    · rw [List.filter_cons, if_neg hp]
      by_cases hq : q u = true
      · rw [List.filter_cons, if_pos hq]
        exact ih.trans (Nat.le_succ _)
      · rw [List.filter_cons, if_neg hq]
        exact ih

theorem length_filter_not_mem_cons_lt (U : List String) (n : String)
    (seen : List String) (hU : n ∈ U) (hn : n ∉ seen) :
    (U.filter (fun x => decide (x ∉ n :: seen))).length
      < (U.filter (fun x => decide (x ∉ seen))).length := by
  induction U with
  | nil => simp at hU
  | cons u U ih =>
    by_cases hu : u = n
    · subst hu
      rw [List.filter_cons, List.filter_cons,
        if_neg (by simp), if_pos (by simpa using hn)]
      have hle : (U.filter (fun x => decide (x ∉ u :: seen))).length
          ≤ (U.filter (fun x => decide (x ∉ seen))).length := by
        apply length_filter_le_of_imp
        intro a ha
        simp only [decide_eq_true_eq] at ha ⊢
        exact fun hmem => ha (List.mem_cons_of_mem _ hmem)
      simpa using Nat.lt_succ_of_le hle
    · have hU1 : n ∈ U := by
        rcases List.mem_cons.mp hU with h1 | h1
        · exact absurd h1.symm hu
        · exact h1
      by_cases hus : u ∈ seen
      · rw [List.filter_cons, List.filter_cons,
          if_neg (by simp [hus]), if_neg (by simp [hus])]
        exact ih hU1
      · rw [List.filter_cons, List.filter_cons,
          if_pos (by simp [hus, hu]), if_pos (by simp [hus])]
        simpa using Nat.succ_lt_succ (ih hU1)

theorem unseenCount_mono (cfg : Cfg) {seen seen2 : List String}
    (h : seen ⊆ seen2) : unseenCount cfg seen2 ≤ unseenCount cfg seen := by
  unfold unseenCount
  apply length_filter_le_of_imp
  intro a ha
  simp only [decide_eq_true_eq] at ha ⊢
  exact fun hmem => ha (h hmem)

theorem mem_cfgNames_of_lookup_some {cfg : Cfg} {name : String}
    {parents : List String} (h : cfg.lookup name = some parents) :
    name ∈ cfgNames cfg := by
  unfold cfgNames
  rw [List.mem_dedup, List.mem_append]
  exact Or.inl (mem_fst_of_lookup_some h)

theorem foldl_congr_inv (Q : RState → Prop) (g1 g2 : RState → String → RState)
    (hq : ∀ s n, Q s → Q (g1 s n)) (heq : ∀ s n, Q s → g1 s n = g2 s n) :
    ∀ (l : List String) (s : RState), Q s → l.foldl g1 s = l.foldl g2 s := by
  intro l
  induction l with
  | nil => intro s _; rfl
  | cons n rest ih =>
    intro s hs
    rw [List.foldl_cons, List.foldl_cons, ← heq s n hs, ih (g1 s n) (hq s n hs)]

/-- Any two recursion budgets strictly above the number of configured
names still unseen produce the same resolution result: the `seen`
guard makes the recursion reach a fixed point within that budget, on
every parent graph. -/
theorem resolveGo_stable (cfg : Cfg) :
    ∀ (f1 f2 : Nat) (name : String) (st : RState),
      unseenCount cfg st.seen < f1 → unseenCount cfg st.seen < f2 →
      resolveGo cfg f1 name st = resolveGo cfg f2 name st := by
  intro f1
  induction f1 using Nat.strong_induction_on with
  | _ f1 ih =>
    intro f2 name st h1 h2
    rcases f1 with _ | a
    · omega
    rcases f2 with _ | b
    · omega
    rw [resolveGo, resolveGo]
    by_cases h : name ∈ st.seen
    · rw [if_pos h, if_pos h]
    · rw [if_neg h, if_neg h]
      rcases hc : cfg.lookup name with _ | parents
      · rfl
      · dsimp only
        have hlt : unseenCount cfg (name :: st.seen) < unseenCount cfg st.seen :=
          length_filter_not_mem_cons_lt (cfgNames cfg) name st.seen
            (mem_cfgNames_of_lookup_some hc) h
        have hfold :
            parents.foldl (fun s p => resolveGo cfg a p s) ⟨name :: st.seen, st.resolved⟩
              = parents.foldl (fun s p => resolveGo cfg b p s)
                  ⟨name :: st.seen, st.resolved⟩ := by
          apply foldl_congr_inv
            (fun s => unseenCount cfg s.seen < a ∧ unseenCount cfg s.seen < b)
          · intro s n hQ
            exact ⟨lt_of_le_of_lt (unseenCount_mono cfg (resolveGo_seen_mono cfg a n s)) hQ.1,
              lt_of_le_of_lt (unseenCount_mono cfg (resolveGo_seen_mono cfg a n s)) hQ.2⟩
          · intro s n hQ
            exact ih a (Nat.lt_succ_self a) b n s hQ.1 hQ.2
          · exact ⟨by dsimp only; omega, by dsimp only; omega⟩
        rw [hfold]

/-- C7: `resolve_template_parents` terminates on every parent graph,
cycles and diamonds included — the recursion stabilizes within the
budget `(cfgNames cfg).length + 1`, so any extra budget changes
nothing — and returns an ancestors-first list in which each name
appears exactly once (no duplicates) and whose last element is the
requested template itself, so the list is never empty. -/
theorem C7_resolver_terminates_nodup_last (cfg : Cfg) (template_name : String) :
    (∀ extra : Nat,
        resolveGo cfg ((cfgNames cfg).length + 1 + extra) template_name ⟨[], []⟩
          = resolveGo cfg ((cfgNames cfg).length + 1) template_name ⟨[], []⟩)
      ∧ (resolve_template_parents cfg template_name).Nodup
      ∧ resolve_template_parents cfg template_name ≠ []
      ∧ (resolve_template_parents cfg template_name).getLast? = some template_name := by
  have hcnt : unseenCount cfg ([] : List String) ≤ (cfgNames cfg).length := by
    unfold unseenCount
    exact List.length_filter_le _ _
  have hshape : ∃ pre, resolve_template_parents cfg template_name
      = pre ++ [template_name] := by
    unfold resolve_template_parents
    rw [resolveGo]
    rw [if_neg (List.not_mem_nil template_name)]
    rcases hc : cfg.lookup template_name with _ | parents
    · exact ⟨[], rfl⟩
    · dsimp only
      exact ⟨_, rfl⟩
  refine ⟨?_, ?_, ?_, ?_⟩
  · intro extra
    exact resolveGo_stable cfg _ _ template_name ⟨[], []⟩
      (by dsimp only; omega) (by dsimp only; omega)
  · obtain ⟨_, L, hr, hn, _, _⟩ :=
      resolveGo_ExtOK cfg ((cfgNames cfg).length + 1) template_name ⟨[], []⟩
    unfold resolve_template_parents
    rw [hr]
    simpa using hn
  · obtain ⟨pre, hp⟩ := hshape
    rw [hp]
    simp
  · obtain ⟨pre, hp⟩ := hshape
    rw [hp]
    exact List.getLast?_concat _

